import Mathlib

/-!
Verification of the ingestion-orchestration and derived-metrics pipeline of the
AI Research Assistant repository.  The Python sources under `src/` are shallowly
embedded below: pure helpers become Lean functions, the SQLite-backed run/source
store becomes explicit state passing over lists, exceptions become `Except`,
pandas/float NaN-semantics become an explicit `FVal` type, and external
collaborators (hashlib digests, float renderers, the yfinance client, the BERT
classifier) are passed in as parameters.
-/

namespace AIRA

/-! ## Generic string helpers (Python `str` semantics over ASCII text) -/

/-- Model of Python string containment: `startsWithL needle hay` checks that
`needle` is an initial segment of `hay` (character lists). -/
def startsWithL : List Char → List Char → Bool
  | [], _ => true
  | _ :: _, [] => false
  | a :: as, b :: bs => a = b && startsWithL as bs

/-- Model of Python `needle in hay` over character lists. -/
def containsSub : List Char → List Char → Bool
  | needle, [] => needle.isEmpty
  | needle, h :: t => startsWithL needle (h :: t) || containsSub needle t

/-- Model of Python `needle in hay` for strings. -/
def containsStr (hay needle : String) : Bool :=
  containsSub needle.data hay.data

/-- Model of Python `str.lower()` (adequate for the ASCII text handled here). -/
def pyLower (s : String) : String :=
  String.mk (s.data.map Char.toLower)

/-- Model of Python `str.isupper()`: at least one cased character and no
lowercase character (for ASCII, cased characters are letters). -/
def pyIsUpper (s : String) : Bool :=
  s.data.any (fun c => c.isAlpha) && s.data.all (fun c => !c.isLower)

/-- Model of Python `"sep".join(parts)`. -/
def joinWith (sep : String) : List String → String
  | [] => ""
  | [a] => a
  | a :: b :: t => a ++ sep ++ joinWith sep (b :: t)

/-- Characters Python `str.strip()` removes. -/
def isPySpace (c : Char) : Bool :=
  c = ' ' || c = '\t' || c = '\n' || c = '\r' || c = '\x0b' || c = '\x0c'

/-- Model of Python `str.strip()`. -/
def pyStrip (s : String) : String :=
  String.mk (((s.data.dropWhile isPySpace).reverse.dropWhile isPySpace).reverse)

/-! ## Fixed-width decimal printing and reading (for `str(datetime)` and
`datetime.fromisoformat`) -/

/-- The decimal digit character for `d < 10`. -/
def digitChar (d : Nat) : Char :=
  if d = 0 then '0' else if d = 1 then '1' else if d = 2 then '2'
  else if d = 3 then '3' else if d = 4 then '4' else if d = 5 then '5'
  else if d = 6 then '6' else if d = 7 then '7' else if d = 8 then '8' else '9'

theorem digitChar_toNat (d : Nat) (h : d < 10) : (digitChar d).toNat = 48 + d := by
  interval_cases d <;> decide

theorem digitChar_isDigit (d : Nat) (h : d < 10) : (digitChar d).isDigit := by
  interval_cases d <;> decide

/-- Fixed-width decimal rendering of a natural number, exactly `w` digits
(leading zeros), as produced by Python `%0Nd` formatting. -/
def padNum : Nat → Nat → List Char
  | 0, _ => []
  | w + 1, n => padNum w (n / 10) ++ [digitChar (n % 10)]

/-- Reads a decimal digit list back to a natural number. -/
def readNat (l : List Char) : Nat :=
  l.foldl (fun a c => a * 10 + (c.toNat - 48)) 0

theorem padNum_length (w n : Nat) : (padNum w n).length = w := by
  induction w generalizing n with
  | zero => rfl
  | succ w ih => simp [padNum, ih]

theorem padNum_digits (w n : Nat) : ∀ c ∈ padNum w n, c.isDigit := by
  induction w generalizing n with
  | zero => intro c hc; simp [padNum] at hc
  | succ w ih =>
    intro c hc
    simp only [padNum, List.mem_append, List.mem_singleton] at hc
    rcases hc with hc | hc
    · exact ih (n / 10) c hc
    · subst hc
      exact digitChar_isDigit (n % 10) (Nat.mod_lt _ (by norm_num))

theorem readNat_foldl_padNum (w n a : Nat) (h : n < 10 ^ w) :
    (padNum w n).foldl (fun x c => x * 10 + (c.toNat - 48)) a = a * 10 ^ w + n := by
  induction w generalizing n a with
  | zero =>
    have : n = 0 := by omega
    simp [padNum, this]
  | succ w ih =>
    have hdiv : n / 10 < 10 ^ w := by
      rw [Nat.div_lt_iff_lt_mul (by norm_num)]
      calc n < 10 ^ (w + 1) := h
        _ = 10 ^ w * 10 := by ring
    have hd : (digitChar (n % 10)).toNat = 48 + n % 10 :=
      digitChar_toNat (n % 10) (Nat.mod_lt _ (by norm_num))
    simp only [padNum, List.foldl_append, List.foldl_cons, List.foldl_nil, ih (n / 10) a hdiv, hd]
    have hmod : 10 * (n / 10) + n % 10 = n := Nat.div_add_mod n 10
    rw [Nat.add_sub_cancel_left, pow_succ]
    conv_rhs => rw [← hmod]
    ring

theorem readNat_padNum (w n : Nat) (h : n < 10 ^ w) : readNat (padNum w n) = n := by
  simpa [readNat] using readNat_foldl_padNum w n 0 h

/-! ## Run state machine (src/models/schemas.py `RunStatus`,
src/models/database.py `create_run` / `update_run_status`) -/

/-- `RunStatus` enum from src/models/schemas.py. -/
inductive RunStatus
  | pending
  | running
  | completed
  | failed
  | cancelled
deriving DecidableEq, Repr

/-- The string stored in the `status` column (`RunStatus.value`). -/
def RunStatus.value : RunStatus → String
  | .pending => "pending"
  | .running => "running"
  | .completed => "completed"
  | .failed => "failed"
  | .cancelled => "cancelled"

/-- Terminal states per the spec: completed, failed, cancelled. -/
def RunStatus.isTerminal : RunStatus → Bool
  | .completed => true
  | .failed => true
  | .cancelled => true
  | _ => false

/-- One row of the `runs` table.  Timestamps are abstract ticks: only their
presence matters to the claims below. -/
structure RunRec where
  query : String
  startedAt : Nat
  finishedAt : Option Nat
  status : RunStatus
  errorMessage : Option String
deriving DecidableEq, Repr

/-- `DatabaseManager.create_run`: INSERT with status `pending`, `finished_at`
and `error_message` NULL. -/
def createRun (query : String) (now : Nat) : RunRec :=
  { query := query, startedAt := now, finishedAt := none,
    status := RunStatus.pending, errorMessage := none }

/-- `DatabaseManager.update_run_status` (src/models/database.py lines 136-157):
the UPDATE sets `finished_at` only in the `status == RunStatus.COMPLETED`
branch; every other status overwrites `status` and `error_message` only.
There is no guard on the previous status. -/
def updateRunStatus (r : RunRec) (status : RunStatus) (errorMessage : Option String)
    (now : Nat) : RunRec :=
  if status = RunStatus.completed then
    { r with status := status, finishedAt := some now, errorMessage := errorMessage }
  else
    { r with status := status, errorMessage := errorMessage }

/-- Applies a sequence of `update_run_status` calls in order. -/
def applyUpdates (r : RunRec) : List (RunStatus × Option String × Nat) → RunRec
  | [] => r
  | u :: us => applyUpdates (updateRunStatus r u.1 u.2.1 u.2.2) us

/-- The run produced by the app's failure path: `create_run`, then
`update_run_status(run_id, RunStatus.RUNNING)` (src/app.py line 291), then
`update_run_status(run_id, RunStatus.FAILED, str(e))` (src/app.py line 395). -/
def failedFlowRun : RunRec :=
  updateRunStatus (updateRunStatus (createRun "AAPL" 0) RunStatus.running none 1)
    RunStatus.failed (some "boom") 2

/-- C2 counterexample: after the running → failed transition the status is the
terminal `failed` but `finished_at` is still NULL, so "finished-at is set if
and only if status is a terminal state" is false, and `finish_failure` does not
set finished-at. -/
theorem C2_finishedAt_counterexample :
    failedFlowRun.status = RunStatus.failed ∧
    failedFlowRun.status.isTerminal = true ∧
    failedFlowRun.finishedAt = none ∧
    failedFlowRun.errorMessage = some "boom" ∧
    ¬ (failedFlowRun.status.isTerminal = true ↔ failedFlowRun.finishedAt ≠ none) := by
  refine ⟨rfl, rfl, rfl, rfl, ?_⟩
  intro h
  exact (h.mp rfl) rfl

/-- C2 amended: `update_run_status` sets `finished_at` exactly on transitions
to `completed`; a transition to `failed` leaves `finished_at` unchanged and
sets only the status and error message, and over any update sequence starting
from `create_run`, finished-at is set iff some update in the sequence was to
`completed`. -/
theorem C2_finishedAt_only_on_completed (r : RunRec) (e : Option String) (now : Nat)
    (q : String) (n0 : Nat) (us : List (RunStatus × Option String × Nat)) :
    (updateRunStatus r RunStatus.failed e now).finishedAt = r.finishedAt ∧
    (updateRunStatus r RunStatus.failed e now).status = RunStatus.failed ∧
    (updateRunStatus r RunStatus.failed e now).errorMessage = e ∧
    (updateRunStatus r RunStatus.completed e now).finishedAt = some now ∧
    ((applyUpdates (createRun q n0) us).finishedAt ≠ none ↔
      (∃ u ∈ us, u.1 = RunStatus.completed)) := by
  refine ⟨by simp [updateRunStatus], by simp [updateRunStatus], by simp [updateRunStatus],
    by simp [updateRunStatus], ?_⟩
  have key : ∀ (us : List (RunStatus × Option String × Nat)) (r : RunRec),
      (applyUpdates r us).finishedAt ≠ none ↔
        (r.finishedAt ≠ none ∨ ∃ u ∈ us, u.1 = RunStatus.completed) := by
    intro us
    induction us with
    | nil => intro r; simp [applyUpdates]
    | cons u us ih =>
      intro r
      have hstep : applyUpdates r (u :: us) =
          applyUpdates (updateRunStatus r u.1 u.2.1 u.2.2) us := rfl
      by_cases hc : u.1 = RunStatus.completed
      · have hupd : (updateRunStatus r u.1 u.2.1 u.2.2).finishedAt = some u.2.2 := by
          simp [updateRunStatus, hc]
        refine iff_of_true ?_ (Or.inr ⟨u, List.mem_cons_self u us, hc⟩)
        rw [hstep, ih]
        exact Or.inl (by simp [hupd])
      · have hupd : (updateRunStatus r u.1 u.2.1 u.2.2).finishedAt = r.finishedAt := by
          simp [updateRunStatus, if_neg hc]
        rw [hstep, ih, hupd]
        constructor
        · rintro (h | ⟨v, hv, hvc⟩)
          · exact Or.inl h
          · exact Or.inr ⟨v, List.mem_cons_of_mem u hv, hvc⟩
        · rintro (h | ⟨v, hv, hvc⟩)
          · exact Or.inl h
          · rcases List.mem_cons.mp hv with h1 | h1
            · exact absurd (h1 ▸ hvc) hc
            · exact Or.inr ⟨v, h1, hvc⟩
  rw [key us (createRun q n0)]
  simp [createRun]

/-- C2 witness: the amended statement at a concrete input. -/
theorem C2_finishedAt_only_on_completed_witness :
    (updateRunStatus failedFlowRun RunStatus.failed (some "x") 7).finishedAt =
      failedFlowRun.finishedAt ∧
    (updateRunStatus failedFlowRun RunStatus.completed (some "x") 7).finishedAt = some 7 ∧
    ((applyUpdates (createRun "MSFT" 0)
        [(RunStatus.running, none, 1), (RunStatus.failed, some "boom", 2)]).finishedAt ≠ none ↔
      (∃ u ∈ [(RunStatus.running, (none : Option String), (1 : Nat)),
        (RunStatus.failed, some "boom", 2)], u.1 = RunStatus.completed)) := by
  have h := C2_finishedAt_only_on_completed failedFlowRun (some "x") 7 "MSFT" 0
    [(RunStatus.running, none, 1), (RunStatus.failed, some "boom", 2)]
  exact ⟨h.1, h.2.2.2.1, h.2.2.2.2⟩

/-- C9: `update_run_status` overwrites the status and error message
unconditionally — there is no transition guard, so any status change is
accepted, including moving a completed run back to `running` or `pending`. -/
theorem C9_update_unguarded (r : RunRec) (s : RunStatus) (e e1 e2 : Option String)
    (now n1 n2 : Nat) :
    (updateRunStatus r s e now).status = s ∧
    (updateRunStatus r s e now).errorMessage = e ∧
    (updateRunStatus (updateRunStatus r RunStatus.completed e1 n1)
      RunStatus.running e2 n2).status = RunStatus.running ∧
    (updateRunStatus (updateRunStatus r RunStatus.completed e1 n1)
      RunStatus.pending e2 n2).status = RunStatus.pending := by
  refine ⟨?_, ?_, by simp [updateRunStatus], by simp [updateRunStatus]⟩
  · unfold updateRunStatus; split <;> simp_all
  · unfold updateRunStatus; split <;> simp_all

/-! ## Retry executor (src/ingestors/base.py `BaseIngestor.process_with_retry`) -/

/-- The loop body of `process_with_retry`.  `op i` is the outcome of the i-th
invocation of the wrapped operation (0-indexed); `remaining` is how many loop
iterations of `for attempt in range(max_retries)` are left; `last` is the
`last_exception` variable.  The result records the returned value (or the
exception finally raised — `error none` models `raise None` when the loop body
never ran), the number of invocations performed, and the list of back-off
delays slept (the code sleeps `delay * 2 ** attempt` only when
`attempt < max_retries - 1`). -/
def retryGo {E A : Type} (op : Nat → Except E A) (base : ℚ) (maxRetries : Nat) :
    Nat → Nat → Option E → Except (Option E) A × Nat × List ℚ
  | _, 0, last => (Except.error last, 0, [])
  | attempt, remaining + 1, _ =>
    match op attempt with
    | Except.ok v => (Except.ok v, 1, [])
    | Except.error e =>
      let r := retryGo op base maxRetries (attempt + 1) remaining (some e)
      (r.1, r.2.1 + 1,
        (if attempt + 1 < maxRetries then [base * 2 ^ attempt] else []) ++ r.2.2)

/-- `process_with_retry(func, max_retries, delay)`: run the loop from attempt
0 with `last_exception = None`. -/
def processWithRetry {E A : Type} (op : Nat → Except E A) (maxRetries : Nat) (base : ℚ) :
    Except (Option E) A × Nat × List ℚ :=
  retryGo op base maxRetries 0 maxRetries none

theorem retryGo_zero {E A : Type} (op : Nat → Except E A) (base : ℚ)
    (maxRetries attempt : Nat) (last : Option E) :
    retryGo op base maxRetries attempt 0 last = (Except.error last, 0, []) := rfl

theorem retryGo_succ {E A : Type} (op : Nat → Except E A) (base : ℚ)
    (maxRetries attempt rem : Nat) (last : Option E) :
    retryGo op base maxRetries attempt (rem + 1) last =
      match op attempt with
      | Except.ok v => (Except.ok v, 1, [])
      | Except.error e =>
        ((retryGo op base maxRetries (attempt + 1) rem (some e)).1,
         (retryGo op base maxRetries (attempt + 1) rem (some e)).2.1 + 1,
         (if attempt + 1 < maxRetries then [base * 2 ^ attempt] else []) ++
           (retryGo op base maxRetries (attempt + 1) rem (some e)).2.2) := rfl

theorem retryGo_succeeds {E A : Type} (op : Nat → Except E A) (base : ℚ)
    (maxRetries : Nat) (v : A) (k : Nat) :
    ∀ attempt remaining last, k < remaining → attempt + k < maxRetries →
    (∀ i, i < k → (op (attempt + i)).isOk = false) →
    op (attempt + k) = Except.ok v →
    retryGo op base maxRetries attempt remaining last =
      (Except.ok v, k + 1, (List.range k).map (fun i => base * 2 ^ (attempt + i))) := by
  induction k with
  | zero =>
    intro attempt remaining last hrem hmax hfail hok
    obtain ⟨rem, rfl⟩ : ∃ r, remaining = r + 1 := ⟨remaining - 1, by omega⟩
    rw [Nat.add_zero] at hok
    rw [retryGo_succ, hok]
    simp
  | succ k ih =>
    intro attempt remaining last hrem hmax hfail hok
    obtain ⟨rem, rfl⟩ : ∃ r, remaining = r + 1 := ⟨remaining - 1, by omega⟩
    cases hop : op attempt with
    | ok w =>
      have h0 := hfail 0 (Nat.succ_pos k)
      rw [Nat.add_zero, hop] at h0
      simp [Except.isOk, Except.toBool] at h0
    | error e =>
      have hrec := ih (attempt + 1) rem (some e) (by omega) (by omega)
        (fun i hi => by
          have hx := hfail (i + 1) (by omega)
          rw [show attempt + (i + 1) = attempt + 1 + i from by omega] at hx
          exact hx)
        (by rw [show attempt + 1 + k = attempt + (k + 1) from by omega]; exact hok)
      have hsl : attempt + 1 < maxRetries := by omega
      have hl : (List.range (k + 1)).map (fun i => base * 2 ^ (attempt + i)) =
          base * 2 ^ attempt :: (List.range k).map (fun i => base * 2 ^ (attempt + 1 + i)) := by
        rw [List.range_succ_eq_map, List.map_cons, List.map_map, Nat.add_zero]
        refine congrArg (List.cons _) (List.map_congr_left ?_)
        intro i hi
        simp only [Function.comp_apply, Nat.succ_eq_add_one]
        rw [show attempt + (i + 1) = attempt + 1 + i from by omega]
      rw [retryGo_succ, hop]
      simp only [hrec, if_pos hsl, hl]
      simp

theorem retryGo_all_fail {E A : Type} (op : Nat → Except E A) (base : ℚ)
    (maxRetries : Nat) (f : Nat → E) :
    ∀ rem attempt last, (∀ i, i ≤ rem → op (attempt + i) = Except.error (f (attempt + i))) →
    (retryGo op base maxRetries attempt (rem + 1) last).1 =
      Except.error (some (f (attempt + rem))) ∧
    (retryGo op base maxRetries attempt (rem + 1) last).2.1 = rem + 1 := by
  intro rem
  induction rem with
  | zero =>
    intro attempt last hfail
    have h0 : op attempt = Except.error (f attempt) := by simpa using hfail 0 (Nat.le_refl 0)
    rw [retryGo_succ, h0]
    simp [retryGo_zero]
  | succ rem ih =>
    intro attempt last hfail
    have h0 : op attempt = Except.error (f attempt) := by
      simpa using hfail 0 (Nat.zero_le _)
    have hrec := ih (attempt + 1) (some (f attempt))
      (fun i hi => by
        have hx := hfail (i + 1) (by omega)
        rw [show attempt + (i + 1) = attempt + 1 + i from by omega] at hx
        exact hx)
    have hidx : attempt + 1 + rem = attempt + (rem + 1) := by omega
    rw [hidx] at hrec
    refine ⟨?_, ?_⟩
    · rw [retryGo_succ, h0]
      simpa using hrec.1
    · rw [retryGo_succ, h0]
      simpa using hrec.2


/-- C6: `op` is an operation failing exactly `k` times with `k < max_retries`
and then succeeding, `op2` an arbitrary second operation for the all-fail
scenario.  `process_with_retry` returns `op`'s success value having invoked
it exactly `k + 1` times, the recorded back-off delays are
`base * 2 ^ (attempt - 1)` for 1-indexed attempts 1..k (hence non-decreasing
for `0 ≤ base`); and whenever `op2` fails at all of its `max_retries`
attempts, its last failure is the exception propagated to the caller after
exactly `max_retries` invocations. -/
theorem C6_retry_contract {E A : Type} (op op2 : Nat → Except E A) (base : ℚ)
    (maxRetries : Nat) (v : A) (k : Nat) (f : Nat → E)
    (hbase : 0 ≤ base) (hpos : 0 < maxRetries) (hk : k < maxRetries)
    (hfail : ∀ i, i < k → (op i).isOk = false)
    (hok : op k = Except.ok v) :
    processWithRetry op maxRetries base =
      (Except.ok v, k + 1, (List.range k).map (fun i => base * 2 ^ i)) ∧
    List.Chain' (fun a b => a ≤ b) ((processWithRetry op maxRetries base).2.2) ∧
    ((∀ i, i < maxRetries → op2 i = Except.error (f i)) →
      (processWithRetry op2 maxRetries base).1 = Except.error (some (f (maxRetries - 1))) ∧
      (processWithRetry op2 maxRetries base).2.1 = maxRetries) := by
  have hmain : processWithRetry op maxRetries base =
      (Except.ok v, k + 1, (List.range k).map (fun i => base * 2 ^ i)) := by
    unfold processWithRetry
    have := retryGo_succeeds op base maxRetries v k 0 maxRetries none hk
      (by omega) (fun i hi => by simpa using hfail i hi) (by simpa using hok)
    simpa using this
  refine ⟨hmain, ?_, ?_⟩
  · rw [hmain]
    dsimp only
    have hchain : List.Chain' (fun a b : Nat => a < b) (List.range k) := by
      cases k with
      | zero => simp
      | succ m =>
        refine (List.chain'_range_succ (fun a b => a < b) m).2 ?_
        intro i hi
        exact Nat.lt_succ_self i
    exact List.chain'_map_of_chain' (fun i => base * 2 ^ i)
      (fun a b hab => mul_le_mul_of_nonneg_left
        (pow_le_pow_right₀ (by norm_num) (Nat.le_of_lt hab)) hbase) hchain
  · intro hop2
    obtain ⟨m, rfl⟩ : ∃ m, maxRetries = m + 1 := ⟨maxRetries - 1, by omega⟩
    have hall := retryGo_all_fail op2 base (m + 1) f m 0 none
      (fun i hi => by simpa using hop2 i (by omega))
    unfold processWithRetry
    constructor
    · rw [hall.1]
      simp
    · exact hall.2

/-- C6 witness: an operation failing twice then succeeding, and a second
operation failing at every attempt, with `max_retries = 3` and
`base_delay = 1`; both scenarios are fully discharged, including the
propagation of the always-failing operation's last exception. -/
theorem C6_retry_contract_witness :
    processWithRetry (fun i => if i < 2 then Except.error i else Except.ok "done") 3 1 =
      (Except.ok "done", 3, (List.range 2).map (fun i => (1 : ℚ) * 2 ^ i)) ∧
    List.Chain' (fun a b => a ≤ b)
      ((processWithRetry (fun i => if i < 2 then Except.error i else Except.ok "done") 3 1).2.2) ∧
    (processWithRetry (fun i => (Except.error i : Except Nat String)) 3 1).1 =
      Except.error (some 2) ∧
    (processWithRetry (fun i => (Except.error i : Except Nat String)) 3 1).2.1 = 3 :=
  have h := C6_retry_contract (fun i => if i < 2 then Except.error i else Except.ok "done")
    (fun i => (Except.error i : Except Nat String)) 1 3 "done" 2 id
    (by norm_num) (by norm_num) (by norm_num)
    (fun i hi => by interval_cases i <;> rfl) (by rfl)
  ⟨h.1, h.2.1, (h.2.2 (fun i hi => rfl)).1, (h.2.2 (fun i hi => rfl)).2⟩

/-! ## Indicator engine (src/core/technical_analysis.py
`TechnicalAnalyzer._calculate_indicators`) -/

/-- IEEE-754 style value as produced by the pandas pipeline: a rational number,
positive/negative infinity, or NaN.  Exact rationals stand for floats; the
constant-price claims below involve no rounding. -/
inductive FVal
  | nan
  | inf
  | ninf
  | fin (q : ℚ)
deriving DecidableEq, Repr

/-- Float addition with NaN/∞ propagation. -/
def fadd : FVal → FVal → FVal
  | .nan, _ => .nan
  | _, .nan => .nan
  | .inf, .ninf => .nan
  | .ninf, .inf => .nan
  | .inf, _ => .inf
  | _, .inf => .inf
  | .ninf, _ => .ninf
  | _, .ninf => .ninf
  | .fin a, .fin b => .fin (a + b)

/-- Float subtraction with NaN/∞ propagation. -/
def fsub : FVal → FVal → FVal
  | .nan, _ => .nan
  | _, .nan => .nan
  | .inf, .inf => .nan
  | .ninf, .ninf => .nan
  | .inf, _ => .inf
  | .ninf, _ => .ninf
  | .fin _, .inf => .ninf
  | .fin _, .ninf => .inf
  | .fin a, .fin b => .fin (a - b)

/-- Float division with NaN/∞ propagation; `0/0` is NaN, `a/0` for `a ≠ 0` is
a signed infinity, `a/∞` is 0 (as in numpy for the nonneg values that occur
in the RSI pipeline). -/
def fdiv : FVal → FVal → FVal
  | .nan, _ => .nan
  | _, .nan => .nan
  | .inf, .inf => .nan
  | .inf, .ninf => .nan
  | .ninf, .inf => .nan
  | .ninf, .ninf => .nan
  | .inf, .fin b => if b < 0 then .ninf else .inf
  | .ninf, .fin b => if b < 0 then .inf else .ninf
  | .fin _, .inf => .fin 0
  | .fin _, .ninf => .fin 0
  | .fin a, .fin b =>
    if b = 0 then (if a = 0 then .nan else if a < 0 then .ninf else .inf)
    else .fin (a / b)

/-- pandas `Series.diff()` followed by `where(delta > 0, 0)`: the first delta
is NaN, which `where` replaces by 0 (NaN > 0 is false), so the first entry is
0; gains keep positive deltas. -/
def gains : List ℚ → List ℚ
  | [] => []
  | x :: xs => 0 :: (List.zipWith (fun b a => if b - a > 0 then b - a else 0) xs (x :: xs))

/-- `(-delta.where(delta < 0, 0))`: the magnitudes of the negative deltas,
first entry 0. -/
def losses : List ℚ → List ℚ
  | [] => []
  | x :: xs => 0 :: (List.zipWith (fun b a => if b - a < 0 then a - b else 0) xs (x :: xs))

/-- pandas `Series.rolling(window=w).mean()`: NaN until `w` observations
exist, then the trailing mean of the last `w` values. -/
def rollingMean (w : Nat) (l : List ℚ) : List FVal :=
  (List.range l.length).map (fun i =>
    if i + 1 < w then FVal.nan
    else FVal.fin ((((l.take (i + 1)).drop (i + 1 - w)).sum) / (w : ℚ)))

/-- The RSI(14) series of `_calculate_indicators`:
`rs = gain.rolling(14).mean() / loss.rolling(14).mean()` and
`rsi = 100 - 100 / (1 + rs)`. -/
def rsiList (l : List ℚ) : List FVal :=
  let g := rollingMean 14 (gains l)
  let lo := rollingMean 14 (losses l)
  let rs := List.zipWith fdiv g lo
  rs.map (fun r => fsub (FVal.fin 100) (fdiv (FVal.fin 100) (fadd (FVal.fin 1) r)))

/-- `sma_20 = data['Close'].rolling(window=20).mean()`. -/
def sma20 (l : List ℚ) : List FVal :=
  rollingMean 20 l

theorem zipWith_self_replicate {f : ℚ → ℚ → ℚ} (c : ℚ) (h : f c c = 0) :
    ∀ k : Nat, List.zipWith f (List.replicate k c) (List.replicate (k + 1) c) =
      List.replicate k 0 := by
  intro k
  induction k with
  | zero => rfl
  | succ m ih =>
    show List.zipWith f (c :: List.replicate m c) (c :: List.replicate (m + 1) c) = _
    rw [List.zipWith_cons_cons, ih, h]
    rfl

theorem gains_replicate (n : Nat) (c : ℚ) : gains (List.replicate n c) = List.replicate n 0 := by
  cases n with
  | zero => rfl
  | succ m =>
    show (0 : ℚ) :: List.zipWith (fun b a => if b - a > 0 then b - a else 0)
        (List.replicate m c) (List.replicate (m + 1) c) = List.replicate (m + 1) 0
    rw [zipWith_self_replicate c (by simp) m]
    rfl

theorem losses_replicate (n : Nat) (c : ℚ) : losses (List.replicate n c) = List.replicate n 0 := by
  cases n with
  | zero => rfl
  | succ m =>
    show (0 : ℚ) :: List.zipWith (fun b a => if b - a < 0 then a - b else 0)
        (List.replicate m c) (List.replicate (m + 1) c) = List.replicate (m + 1) 0
    rw [zipWith_self_replicate c (by simp) m]
    rfl

theorem rollingMean_replicate (w n : Nat) (c : ℚ) (hw : 0 < w) :
    rollingMean w (List.replicate n c) =
      (List.range n).map (fun i => if i + 1 < w then FVal.nan else FVal.fin c) := by
  unfold rollingMean
  rw [List.length_replicate]
  refine List.map_congr_left ?_
  intro i hi
  rw [List.mem_range] at hi
  by_cases hlt : i + 1 < w
  · simp [hlt]
  · have hwle : w ≤ i + 1 := Nat.le_of_not_lt hlt
    have htake : (List.replicate n c).take (i + 1) = List.replicate (i + 1) c := by
      rw [List.take_replicate]
      congr 1
      omega
    have hdrop : (List.replicate (i + 1) c).drop (i + 1 - w) = List.replicate w c := by
      rw [List.drop_replicate]
      congr 1
      omega
    have hw0 : (w : ℚ) ≠ 0 := by
      exact_mod_cast Nat.pos_iff_ne_zero.mp hw
    simp only [if_neg hlt]
    rw [htake, hdrop, List.sum_replicate, nsmul_eq_mul, mul_div_cancel_left₀ c hw0]

/-- On a constant series, the RSI pipeline yields NaN at every index: both
rolling means are NaN for the first 13 points and exactly 0 afterwards, so
RS is either NaN/NaN or 0/0, both NaN, and the final map keeps NaN. -/
theorem rsiList_replicate (n : Nat) (c : ℚ) :
    rsiList (List.replicate n c) = List.replicate n FVal.nan := by
  unfold rsiList
  simp only [gains_replicate, losses_replicate, rollingMean_replicate 14 n 0 (by norm_num)]
  have hzip : List.zipWith fdiv
      ((List.range n).map (fun i => if i + 1 < 14 then FVal.nan else FVal.fin 0))
      ((List.range n).map (fun i => if i + 1 < 14 then FVal.nan else FVal.fin 0)) =
      (List.range n).map (fun i =>
        fdiv (if i + 1 < 14 then FVal.nan else FVal.fin 0)
          (if i + 1 < 14 then FVal.nan else FVal.fin 0)) := by
    rw [List.zipWith_map_left, List.zipWith_map_right]
    rw [List.zipWith_same]
  rw [hzip, List.map_map]
  rw [List.eq_replicate_iff]
  constructor
  · simp
  · intro b hb
    simp only [List.mem_map, Function.comp_apply, List.mem_range] at hb
    obtain ⟨i, hi, rfl⟩ := hb
    by_cases h : i + 1 < 14
    · simp [h, fdiv, fadd, fsub]
    · simp [h, fdiv, fadd, fsub]

/-- C5 counterexample: on the constant series of 15 fives the claim says RSI
at index 14 (the 15th point, past the first 14) is exactly 50; the code's
rolling gain and loss means are both 0 there, `rs = 0/0` is NaN, and the RSI
stays NaN, not 50. -/
theorem C5_rsi_counterexample :
    (rsiList (List.replicate 15 (5 : ℚ)))[14]? = some FVal.nan ∧
    (rsiList (List.replicate 15 (5 : ℚ)))[14]? ≠ some (FVal.fin 50) := by
  rw [rsiList_replicate]
  constructor
  · decide
  · decide

/-- C5 amended: on every constant-price series the computed RSI is NaN at
every index (in particular for the first 14 points, but also forever after:
average gain and loss are both zero, so RS is the undefined 0/0, never the
neutral 50), while SMA(20) does equal the constant price at every index with
20 points of history. -/
theorem C5_constant_series_indicators (n : Nat) (c : ℚ) (i j : Nat)
    (hi : i < n) (hj19 : 19 ≤ j) (hjn : j < n) :
    (rsiList (List.replicate n c))[i]? = some FVal.nan ∧
    (sma20 (List.replicate n c))[j]? = some (FVal.fin c) := by
  constructor
  · rw [rsiList_replicate, List.getElem?_replicate, if_pos hi]
  · unfold sma20
    rw [rollingMean_replicate 20 n c (by norm_num)]
    rw [List.getElem?_map, List.getElem?_range hjn]
    have : ¬ (j + 1 < 20) := by omega
    simp [this]

/-- C5 witness: the amended statement at index 3 (inside the NaN head) and
index 25 (SMA window full) of a 30-point constant series. -/
theorem C5_constant_series_indicators_witness :
    (rsiList (List.replicate 30 (7 : ℚ)))[3]? = some FVal.nan ∧
    (sma20 (List.replicate 30 (7 : ℚ)))[25]? = some (FVal.fin 7) :=
  C5_constant_series_indicators 30 7 3 25 (by norm_num) (by norm_num) (by norm_num)

/-! ## News relevance filter (src/ingestors/news_ingestor.py
`NewsIngestor._is_relevant_article`) -/

/-- An RSS feed entry as consumed by the filter: optional `title` and
`summary` attributes (Python's `hasattr(entry, ...) and entry.x` truthiness is
modelled by `Option` plus a non-empty check), and the lowered `term` strings
of its tags. -/
structure FeedEntry where
  title : Option String
  summary : Option String
  tags : List String
deriving DecidableEq, Repr

/-- The `company_names` alias table of `_is_relevant_article`. -/
def companyNames : List (String × List String) :=
  [("aapl", ["apple", "apple inc", "iphone", "macbook", "ipad"]),
   ("tsla", ["tesla", "tesla inc", "electric vehicle", "ev"]),
   ("msft", ["microsoft", "microsoft corp", "windows", "azure"]),
   ("googl", ["google", "alphabet", "alphabet inc"]),
   ("amzn", ["amazon", "amazon.com", "e-commerce"]),
   ("meta", ["facebook", "meta platforms", "social media"]),
   ("nvda", ["nvidia", "nvidia corp", "gpu", "artificial intelligence"]),
   ("brk", ["berkshire hathaway", "warren buffett"]),
   ("jpm", ["jpmorgan", "jpmorgan chase", "bank"]),
   ("v", ["visa", "visa inc", "payment", "credit card"])]

/-- The nine business keywords checked inside the title/summary branches. -/
def businessKeywords9 : List String :=
  ["stock", "market", "earnings", "revenue", "profit", "financial", "business",
   "company", "trading"]

/-- The eleven business keywords of the final fallback check. -/
def businessKeywords11 : List String :=
  ["stock", "market", "earnings", "revenue", "profit", "financial", "business",
   "company", "trading", "economy", "investment"]

/-- `search_terms`: the lowered query plus its aliases when the lowered query
is a known ticker. -/
def searchTerms (ql : String) : List String :=
  ql :: ((companyNames.lookup ql).getD [])

/-- `len(query) <= 5 and query.isupper()` — the "likely a ticker" test. -/
def tickerShaped (q : String) : Bool :=
  decide (q.length ≤ 5) && pyIsUpper q

/-- Python `if hasattr(entry, f) and entry.f:` followed by a predicate on the
lowered field. -/
def optHas (o : Option String) (p : String → Bool) : Bool :=
  match o with
  | some s => (!decide (s = "")) && p (pyLower s)
  | none => false

/-- `NewsIngestor._is_relevant_article` (src/ingestors/news_ingestor.py lines
163-244).  The Python body is a chain of early `return True`s with a final
`return False`; since it is side-effect free it equals the disjunction of the
return conditions in order: search-term match in the title; business keyword
in the title when the query is ticker-shaped; the same two checks on the
summary; the lowered query inside a tag term; unconditional acceptance for
ticker-shaped queries; and the final eleven-keyword business fallback over
title and summary. -/
def isRelevantArticle (e : FeedEntry) (query : String) : Bool :=
  if query = "" then true
  else
    let ql := pyLower query
    let terms := searchTerms ql
    let tick := tickerShaped query
    optHas e.title (fun t => terms.any (fun term => containsStr t term)) ||
    (tick && optHas e.title (fun t => businessKeywords9.any (fun k => containsStr t k))) ||
    optHas e.summary (fun s => terms.any (fun term => containsStr s term)) ||
    (tick && optHas e.summary (fun s => businessKeywords9.any (fun k => containsStr s k))) ||
    e.tags.any (fun tg => containsStr (pyLower tg) ql) ||
    tick ||
    optHas e.title (fun t => businessKeywords11.any (fun k => containsStr t k)) ||
    optHas e.summary (fun s => businessKeywords11.any (fun k => containsStr s k))

/-- The relevance predicate as the spec words it: the entry's title, summary
or tags match the query term or a company-name alias, or title/summary match
generic business vocabulary (the fallback). -/
def relevantSpec (e : FeedEntry) (query : String) : Bool :=
  let ql := pyLower query
  let terms := searchTerms ql
  optHas e.title (fun t => terms.any (fun term => containsStr t term)) ||
  optHas e.summary (fun s => terms.any (fun term => containsStr s term)) ||
  e.tags.any (fun tg => containsStr (pyLower tg) ql) ||
  optHas e.title (fun t => businessKeywords11.any (fun k => containsStr t k)) ||
  optHas e.summary (fun s => businessKeywords11.any (fun k => containsStr s k))

/-- An entry about gardening: no query term, no alias, no tag, and no business
keyword occurs in it. -/
def gardeningEntry : FeedEntry :=
  { title := some "Gardening tips for spring", summary := none, tags := [] }

/-- C7 counterexample: for the ticker query "AAPL" the filter accepts the
gardening entry even though it matches no search term, no alias, no tag and
no business keyword — the "only if relevant" direction of the claim is false
(the ticker-shaped branch accepts every entry unconditionally). -/
theorem C7_relevance_counterexample :
    isRelevantArticle gardeningEntry "AAPL" = true ∧
    relevantSpec gardeningEntry "AAPL" = false := by
  constructor
  · decide
  · decide

/-- C7 amended: for a non-empty query, the filter accepts an entry iff the
query is ticker-shaped (at most five characters, uppercase — in which case
every entry is accepted regardless of content) or the entry matches the
spec's relevance predicate (query term/alias in title or summary, tag match,
or the generic business-vocabulary fallback). -/
theorem C7_relevance_filter (e : FeedEntry) (q : String) (hq : q ≠ "") :
    isRelevantArticle e q = (tickerShaped q || relevantSpec e q) := by
  unfold isRelevantArticle relevantSpec
  rw [if_neg hq]
  cases ht : tickerShaped q with
  | true => simp [ht]
  | false =>
    simp [ht]

/-- C7 witness: the amended equivalence evaluated at the gardening entry and
the ticker query "AAPL". -/
theorem C7_relevance_filter_witness :
    "AAPL" ≠ "" ∧
    isRelevantArticle gardeningEntry "AAPL" =
      (tickerShaped "AAPL" || relevantSpec gardeningEntry "AAPL") :=
  ⟨by decide, C7_relevance_filter gardeningEntry "AAPL" (by decide)⟩

/-! ## Python datetime round trip (sqlite stores `str(datetime)`, and
`DatabaseManager.get_sources` / `get_run` read it back with
`datetime.fromisoformat`) -/

/-- A Python `datetime` value. -/
structure DT where
  year : Nat
  month : Nat
  day : Nat
  hour : Nat
  minute : Nat
  second : Nat
  micro : Nat
deriving DecidableEq, Repr

/-- A datetime as Python can actually hold it: four-digit year, valid ranges
(the day bound 1..31 is slightly looser than the per-month calendar). -/
def DTValid (d : DT) : Prop :=
  d.year < 10000 ∧ 1 ≤ d.month ∧ d.month ≤ 12 ∧ 1 ≤ d.day ∧ d.day ≤ 31 ∧
  d.hour ≤ 23 ∧ d.minute ≤ 59 ∧ d.second ≤ 59 ∧ d.micro < 1000000

instance (d : DT) : Decidable (DTValid d) :=
  inferInstanceAs (Decidable (d.year < 10000 ∧ 1 ≤ d.month ∧ d.month ≤ 12 ∧ 1 ≤ d.day ∧
    d.day ≤ 31 ∧ d.hour ≤ 23 ∧ d.minute ≤ 59 ∧ d.second ≤ 59 ∧ d.micro < 1000000))

/-- `str(datetime)` — the string sqlite3's default adapter stores:
`YYYY-MM-DD HH:MM:SS` with `.ffffff` appended only when microseconds are
non-zero. -/
def pyDTStr (d : DT) : String :=
  String.mk (padNum 4 d.year ++ '-' :: (padNum 2 d.month ++ '-' :: (padNum 2 d.day ++
    ' ' :: (padNum 2 d.hour ++ ':' :: (padNum 2 d.minute ++ ':' :: (padNum 2 d.second ++
    (if d.micro = 0 then [] else '.' :: padNum 6 d.micro)))))))

/-- Reads exactly `w` decimal digits, returning the value and the remainder. -/
def takeDigits (w : Nat) (l : List Char) : Option (Nat × List Char) :=
  let pre := l.take w
  if pre.length = w ∧ ∀ c ∈ pre, c.isDigit then some (readNat pre, l.drop w)
  else none

/-- Consumes one expected character. -/
def expectChar (c : Char) : List Char → Option (List Char)
  | [] => none
  | h :: t => if h = c then some t else none

/-- Parses the optional `.ffffff` microsecond suffix. -/
def parseMicro : List Char → Option (Nat × List Char)
  | [] => some (0, [])
  | c :: t => if c = '.' then takeDigits 6 t else none

/-- `datetime.fromisoformat` for the strings produced by `pyDTStr`:
positional digits with separators emitted by the sqlite datetime adapter,
plus range validation. -/
def parseIso (s : String) : Option DT :=
  match takeDigits 4 s.data with
  | none => none
  | some (y, r1) =>
    match expectChar '-' r1 with
    | none => none
    | some r2 =>
      match takeDigits 2 r2 with
      | none => none
      | some (mo, r3) =>
        match expectChar '-' r3 with
        | none => none
        | some r4 =>
          match takeDigits 2 r4 with
          | none => none
          | some (dd, r5) =>
            match expectChar ' ' r5 with
            | none => none
            | some r6 =>
              match takeDigits 2 r6 with
              | none => none
              | some (hh, r7) =>
                match expectChar ':' r7 with
                | none => none
                | some r8 =>
                  match takeDigits 2 r8 with
                  | none => none
                  | some (mi, r9) =>
                    match expectChar ':' r9 with
                    | none => none
                    | some r10 =>
                      match takeDigits 2 r10 with
                      | none => none
                      | some (se, r11) =>
                        match parseMicro r11 with
                        | none => none
                        | some (us, r12) =>
                          let d : DT := { year := y, month := mo, day := dd, hour := hh,
                                          minute := mi, second := se, micro := us }
                          if r12 = [] ∧ DTValid d then some d else none

theorem takeDigits_padNum (w n : Nat) (h : n < 10 ^ w) (rest : List Char) :
    takeDigits w (padNum w n ++ rest) = some (n, rest) := by
  unfold takeDigits
  have htake : (padNum w n ++ rest).take w = padNum w n := by
    have hx := List.take_left (padNum w n) rest
    rwa [padNum_length] at hx
  have hdrop : (padNum w n ++ rest).drop w = rest := by
    have hx := List.drop_left (padNum w n) rest
    rwa [padNum_length] at hx
  rw [htake, hdrop]
  rw [if_pos ⟨padNum_length w n, padNum_digits w n⟩, readNat_padNum w n h]

theorem expectChar_cons (c : Char) (t : List Char) : expectChar c (c :: t) = some t := by
  simp [expectChar]

theorem parseIso_pyDTStr (d : DT) (hv : DTValid d) : parseIso (pyDTStr d) = some d := by
  obtain ⟨y, mo, dd, hh, mi, se, us⟩ := d
  obtain ⟨h1, h2, h3, h4, h5, h6, h7, h8, h9⟩ := hv
  dsimp only at h1 h2 h3 h4 h5 h6 h7 h8 h9
  have hp4 : (10 : Nat) ^ 4 = 10000 := by norm_num
  have hp2 : (10 : Nat) ^ 2 = 100 := by norm_num
  have t4 := takeDigits_padNum 4 y (by omega)
  have tmo := takeDigits_padNum 2 mo (by omega)
  have tdd := takeDigits_padNum 2 dd (by omega)
  have thh := takeDigits_padNum 2 hh (by omega)
  have tmi := takeDigits_padNum 2 mi (by omega)
  have tse := takeDigits_padNum 2 se (by omega)
  have hval : DTValid ⟨y, mo, dd, hh, mi, se, us⟩ := ⟨h1, h2, h3, h4, h5, h6, h7, h8, h9⟩
  have hmicro : parseMicro (if us = 0 then [] else '.' :: padNum 6 us) = some (us, []) := by
    by_cases hmu : us = 0
    · rw [if_pos hmu, hmu]
      rfl
    · have hp6 : (10 : Nat) ^ 6 = 1000000 := by norm_num
      rw [if_neg hmu]
      show (if '.' = '.' then takeDigits 6 (padNum 6 us) else none) = some (us, [])
      rw [if_pos rfl]
      simpa using takeDigits_padNum 6 us (by omega) []
  unfold pyDTStr parseIso
  dsimp only
  rw [t4]
  dsimp only
  rw [expectChar_cons]
  dsimp only
  rw [tmo]
  dsimp only
  rw [expectChar_cons]
  dsimp only
  rw [tdd]
  dsimp only
  rw [expectChar_cons]
  dsimp only
  rw [thh]
  dsimp only
  rw [expectChar_cons]
  dsimp only
  rw [tmi]
  dsimp only
  rw [expectChar_cons]
  dsimp only
  rw [tse]
  dsimp only
  rw [hmicro]
  dsimp only
  rw [if_pos ⟨rfl, hval⟩]

/-! ## Metadata JSON round trip (`DatabaseManager._dict_to_json` /
`_json_to_dict`).  Metadata dictionaries are modelled as ordered string-keyed
association lists with string or null values; `json.dumps` with its default
separators is modelled for strings free of characters it would escape (the
quote, the backslash, control characters and non-ASCII, which `ensure_ascii`
turns into escapes). -/

/-- A metadata value: a JSON string, null, or a nested object of
rendered-number-or-null entries (as the market ingestor's `ratios` dict;
numeric values appear as their rendered decimal strings). -/
inductive MetaV
  | vs (s : String)
  | vnull
  | vobj (o : List (String × Option String))
deriving DecidableEq, Repr

/-- The opening brace character. -/
def lbrace : Char := Char.ofNat 123

/-- The closing brace character. -/
def rbrace : Char := Char.ofNat 125

/-- `json.dumps` of one value (a nested object's numeric values are dumped
unquoted, null as null). -/
def metaVStr : MetaV → String
  | .vs s => "\"" ++ s ++ "\""
  | .vnull => "null"
  | .vobj o => String.mk (lbrace :: ((joinWith ", " (o.map (fun kv =>
      "\"" ++ kv.1 ++ "\": " ++ kv.2.getD "null"))).data ++ [rbrace]))

/-- `json.dumps` of one `key: value` entry. -/
def entryStr (kv : String × MetaV) : String :=
  "\"" ++ kv.1 ++ "\": " ++ metaVStr kv.2

/-- `json.dumps(d)` with the default `", "` / `": "` separators. -/
def dumpsMeta (m : List (String × MetaV)) : String :=
  String.mk (lbrace :: ((joinWith ", " (m.map entryStr)).data ++ [rbrace]))

/-- `DatabaseManager._dict_to_json`: `json.dumps(data) if data else "{}"`
(both give the two-brace string for the empty dict). -/
def dictToJson (m : List (String × MetaV)) : String :=
  if m = [] then String.mk [lbrace, rbrace] else dumpsMeta m

/-- Parses a JSON string literal without escapes: a quote, the characters up
to the next quote, the closing quote. -/
def parseJString : List Char → Option (String × List Char)
  | [] => none
  | c :: rest =>
    if c = '"' then
      match rest.drop ((rest.takeWhile (fun x => !(x = '"'))).length) with
      | c2 :: r2 => if c2 = '"' then some (String.mk (rest.takeWhile (fun x => !(x = '"'))), r2) else none
      | _ => none
    else none

/-- Parses a value: `null` or a string literal. -/
def parseJValue (l : List Char) : Option (MetaV × List Char) :=
  if startsWithL ['n', 'u', 'l', 'l'] l then some (MetaV.vnull, l.drop 4)
  else (parseJString l).map (fun p => (MetaV.vs p.1, p.2))

/-- Parses a non-empty `", "`-separated entry sequence (fuelled recursion;
the callers pass the input length, which bounds the entry count). -/
def parseEntries : Nat → List Char → Option (List (String × MetaV) × List Char)
  | 0, _ => none
  | fuel + 1, l =>
    match parseJString l with
    | none => none
    | some (k, r1) =>
      match r1 with
      | ':' :: ' ' :: r2 =>
        (match parseJValue r2 with
         | none => none
         | some (v, r3) =>
           match r3 with
           | ',' :: ' ' :: r4 =>
             (match parseEntries fuel r4 with
              | none => none
              | some (es, r5) => some ((k, v) :: es, r5))
           | _ => some ([(k, v)], r3))
      | _ => none

/-- `json.loads` for the object strings produced by `dictToJson`: expects an
opening brace, then either an immediate closing brace (the empty object) or a
non-empty entry sequence followed by the closing brace. -/
def parseMetaL (l : List Char) : Option (List (String × MetaV)) :=
  match l with
  | [] => none
  | c :: r =>
    if c = lbrace then
      if r = [rbrace] then some []
      else
        match parseEntries l.length r with
        | some (es, [c3]) => if c3 = rbrace then some es else none
        | _ => none
    else none

/-- `DatabaseManager._json_to_dict`: `json.loads`, with `{}` on a decode
error. -/
def jsonToDict (s : String) : List (String × MetaV) :=
  (parseMetaL s.data).getD []

/-- A string `json.dumps` writes verbatim: printable ASCII with no quote and
no backslash. -/
def escapeFree (s : String) : Prop :=
  ∀ c ∈ s.data, 32 ≤ c.toNat ∧ c.toNat ≤ 126 ∧ c ≠ '"' ∧ c ≠ '\\'

instance (s : String) : Decidable (escapeFree s) := by
  unfold escapeFree
  exact List.decidableBAll _ s.data

/-- The value is a string `json.dumps` writes verbatim, or null (nested
objects are excluded from the round-trip statement). -/
def valEscapeFree : MetaV → Prop
  | .vs s => escapeFree s
  | .vnull => True
  | .vobj _ => False

instance (v : MetaV) : Decidable (valEscapeFree v) :=
  match v with
  | .vs s => inferInstanceAs (Decidable (escapeFree s))
  | .vnull => inferInstanceAs (Decidable True)
  | .vobj _ => inferInstanceAs (Decidable False)

/-- All keys and string values of the metadata are escape-free. -/
def metaEscapeFree (m : List (String × MetaV)) : Prop :=
  ∀ kv ∈ m, escapeFree kv.1 ∧ valEscapeFree kv.2

instance (m : List (String × MetaV)) : Decidable (metaEscapeFree m) := by
  unfold metaEscapeFree
  exact List.decidableBAll _ m

theorem takeWhile_all_append {p : Char → Bool} (l rest : List Char)
    (hl : ∀ c ∈ l, p c = true) (c0 : Char) (hc0 : p c0 = false) :
    (l ++ c0 :: rest).takeWhile p = l := by
  induction l with
  | nil => simp [List.takeWhile, hc0]
  | cons a t ih =>
    have ha : p a = true := hl a (List.mem_cons_self a t)
    simp only [List.cons_append, List.takeWhile_cons, ha, if_pos]
    rw [ih (fun c hc => hl c (List.mem_cons_of_mem a hc))]

theorem parseJString_quoted (s : String) (hs : ∀ c ∈ s.data, c ≠ '"')
    (rest : List Char) :
    parseJString ('"' :: (s.data ++ '"' :: rest)) = some (s, rest) := by
  have htw : (s.data ++ '"' :: rest).takeWhile (fun x => !(x = '"')) = s.data := by
    refine takeWhile_all_append s.data rest ?_ '"' ?_
    · intro c hc
      simp [hs c hc]
    · simp
  have hdrop0 : (s.data ++ '"' :: rest).drop s.data.length = '"' :: rest :=
    List.drop_left _ _
  simp [parseJString, htw, hdrop0]

theorem parseJValue_roundtrip (v : MetaV)
    (hv : valEscapeFree v) (rest : List Char) :
    parseJValue ((metaVStr v).data ++ rest) = some (v, rest) := by
  cases v with
  | vnull => rfl
  | vobj o => exact False.elim hv
  | vs s =>
    have hesc : escapeFree s := hv
    have hnq : ∀ c ∈ s.data, c ≠ '"' := fun c hc => (hesc c hc).2.2.1
    have hdata : (metaVStr (MetaV.vs s)).data ++ rest =
        '"' :: (s.data ++ '"' :: rest) := by
      show ("\"" ++ s ++ "\"").data ++ rest = _
      rw [String.data_append, String.data_append]
      simp
    rw [hdata]
    have hneg : startsWithL ['n', 'u', 'l', 'l'] ('"' :: (s.data ++ '"' :: rest)) = false := rfl
    have hps := parseJString_quoted s hnq rest
    simp [parseJValue, hneg, hps]

theorem entryStr_data (k : String) (v : MetaV) (X : List Char) :
    (entryStr (k, v)).data ++ X =
      '"' :: (k.data ++ '"' :: ':' :: ' ' :: ((metaVStr v).data ++ X)) := by
  show ("\"" ++ k ++ "\": " ++ metaVStr v).data ++ X = _
  rw [String.data_append, String.data_append, String.data_append]
  simp

theorem parseEntries_cons_step (fuel : Nat) (k : String) (v : MetaV)
    (hk : ∀ c ∈ k.data, c ≠ '"') (hv : valEscapeFree v) (R : List Char) :
    parseEntries (fuel + 1) ('"' :: (k.data ++ '"' :: ':' :: ' ' :: ((metaVStr v).data ++ R))) =
      (match R with
       | ',' :: ' ' :: r4 =>
         (match parseEntries fuel r4 with
          | none => none
          | some (es, r5) => some ((k, v) :: es, r5))
       | _ => some ([(k, v)], R)) := by
  have hps := parseJString_quoted k hk (':' :: ' ' :: ((metaVStr v).data ++ R))
  have hpv := parseJValue_roundtrip v hv R
  simp only [parseEntries, hps, hpv]

theorem parseEntries_roundtrip :
    ∀ (m : List (String × MetaV)), m ≠ [] → metaEscapeFree m →
    ∀ fuel, m.length ≤ fuel →
    parseEntries fuel ((joinWith ", " (m.map entryStr)).data ++ [rbrace]) =
      some (m, [rbrace]) := by
  intro m
  induction m with
  | nil => intro h; exact absurd rfl h
  | cons kv rest ih =>
    intro _ hesc fuel hfuel
    obtain ⟨f2, rfl⟩ : ∃ f2, fuel = f2 + 1 := ⟨fuel - 1, by simp at hfuel; omega⟩
    obtain ⟨k, v⟩ := kv
    have hkv := hesc (k, v) (List.mem_cons_self _ _)
    have hk : ∀ c ∈ k.data, c ≠ '"' := fun c hc => (hkv.1 c hc).2.2.1
    have hv : valEscapeFree v := hkv.2
    cases rest with
    | nil =>
      rw [show (joinWith ", " ([(k, v)].map entryStr)).data ++ [rbrace] =
        (entryStr (k, v)).data ++ [rbrace] from rfl]
      rw [entryStr_data k v [rbrace]]
      rw [parseEntries_cons_step f2 k v hk hv [rbrace]]
      rfl
    | cons y t =>
      have hlist : (joinWith ", " (((k, v) :: y :: t).map entryStr)).data ++ [rbrace] =
          '"' :: (k.data ++ '"' :: ':' :: ' ' :: ((metaVStr v).data ++
            (',' :: ' ' :: ((joinWith ", " ((y :: t).map entryStr)).data ++ [rbrace])))) := by
        rw [show joinWith ", " (((k, v) :: y :: t).map entryStr) =
          entryStr (k, v) ++ ", " ++ joinWith ", " ((y :: t).map entryStr) from rfl]
        rw [String.data_append, String.data_append, List.append_assoc, List.append_assoc]
        rw [show (", ".data ++ ((joinWith ", " ((y :: t).map entryStr)).data ++ [rbrace]) : List Char) =
          ',' :: ' ' :: ((joinWith ", " ((y :: t).map entryStr)).data ++ [rbrace]) from rfl]
        rw [entryStr_data k v (',' :: ' ' :: ((joinWith ", " ((y :: t).map entryStr)).data ++ [rbrace]))]
      rw [hlist, parseEntries_cons_step f2 k v hk hv]
      have hrec := ih (by simp) (fun kv2 h2 => hesc kv2 (List.mem_cons_of_mem _ h2)) f2
        (by simp at hfuel ⊢; omega)
      simp only [hrec]

theorem entryStr_data_head (k : String) (v : MetaV) :
    (entryStr (k, v)).data = '"' :: (k.data ++ '"' :: ':' :: ' ' :: ((metaVStr v).data ++ [])) := by
  have h := entryStr_data k v []
  simpa using h

theorem joinWith_entryStr_head (m : List (String × MetaV)) (hm : m ≠ []) :
    ∃ t0, (joinWith ", " (m.map entryStr)).data = '"' :: t0 := by
  cases m with
  | nil => exact absurd rfl hm
  | cons kv rest =>
    obtain ⟨k, v⟩ := kv
    cases rest with
    | nil =>
      refine ⟨k.data ++ '"' :: ':' :: ' ' :: ((metaVStr v).data ++ []), ?_⟩
      rw [show joinWith ", " ([(k, v)].map entryStr) = entryStr (k, v) from rfl]
      exact entryStr_data_head k v
    | cons y t =>
      refine ⟨(k.data ++ '"' :: ':' :: ' ' :: ((metaVStr v).data ++ [])) ++
        (", " ++ joinWith ", " ((y :: t).map entryStr)).data, ?_⟩
      rw [show joinWith ", " (((k, v) :: y :: t).map entryStr) =
        entryStr (k, v) ++ (", " ++ joinWith ", " ((y :: t).map entryStr)) from by
          rw [show joinWith ", " (((k, v) :: y :: t).map entryStr) =
            entryStr (k, v) ++ ", " ++ joinWith ", " ((y :: t).map entryStr) from rfl]
          rw [String.append_assoc]]
      rw [String.data_append]
      rw [show (entryStr (k, v)).data =
        '"' :: (k.data ++ '"' :: ':' :: ' ' :: ((metaVStr v).data ++ [])) from entryStr_data_head k v]
      rfl

theorem joinWith_entryStr_length (m : List (String × MetaV)) :
    m.length ≤ (joinWith ", " (m.map entryStr)).data.length := by
  induction m with
  | nil => simp [joinWith]
  | cons kv rest ih =>
    obtain ⟨k, v⟩ := kv
    cases rest with
    | nil =>
      rw [show joinWith ", " ([(k, v)].map entryStr) = entryStr (k, v) from rfl]
      rw [entryStr_data_head k v]
      simp
    | cons y t =>
      rw [show joinWith ", " (((k, v) :: y :: t).map entryStr) =
        entryStr (k, v) ++ ", " ++ joinWith ", " ((y :: t).map entryStr) from rfl]
      rw [String.data_append, String.data_append]
      simp only [List.length_append, List.length_cons]
      have h1 : 1 ≤ (entryStr (k, v)).data.length := by
        rw [entryStr_data_head k v]
        simp
      simp only [List.length_cons] at ih ⊢
      omega

theorem parseMetaL_shape (t0 : List Char) (m : List (String × MetaV))
    (hparse : parseEntries (t0.length + 3) ('"' :: (t0 ++ [rbrace])) = some (m, [rbrace])) :
    parseMetaL (lbrace :: (('"' :: t0) ++ [rbrace])) = some m := by
  have hne : ¬(('"' :: t0 : List Char) ++ [rbrace] = [rbrace]) := by
    intro h
    rw [List.cons_append] at h
    have hhead : ('"' : Char) = rbrace := by
      injection h
    exact absurd hhead (by decide)
  have hlen : (lbrace :: (('"' :: t0 : List Char) ++ [rbrace])).length = t0.length + 3 := by
    simp
  show (if lbrace = lbrace then
      if ('"' :: t0 : List Char) ++ [rbrace] = [rbrace] then some []
      else
        match parseEntries (lbrace :: (('"' :: t0 : List Char) ++ [rbrace])).length
            (('"' :: t0 : List Char) ++ [rbrace]) with
        | some (es, [c3]) => if c3 = rbrace then some es else none
        | _ => none
    else none) = some m
  rw [if_pos rfl, if_neg hne, hlen]
  rw [show (('"' :: t0 : List Char) ++ [rbrace]) = '"' :: (t0 ++ [rbrace]) from rfl]
  rw [hparse]
  simp

/-- `_json_to_dict(_dict_to_json(d)) = d` for metadata whose keys and string
values need no JSON escaping. -/
theorem jsonToDict_dictToJson (m : List (String × MetaV)) (hesc : metaEscapeFree m) :
    jsonToDict (dictToJson m) = m := by
  by_cases hm : m = []
  · subst hm
    rfl
  · obtain ⟨t0, ht0⟩ := joinWith_entryStr_head m hm
    have hfuel : m.length ≤ t0.length + 3 := by
      have h1 := joinWith_entryStr_length m
      rw [ht0] at h1
      simp at h1
      omega
    have hparse := parseEntries_roundtrip m hm hesc (t0.length + 3) hfuel
    rw [ht0] at hparse
    rw [show ('"' :: t0 : List Char) ++ [rbrace] = '"' :: (t0 ++ [rbrace]) from rfl] at hparse
    unfold jsonToDict dictToJson
    rw [if_neg hm]
    rw [show (dumpsMeta m).data =
      lbrace :: ((joinWith ", " (m.map entryStr)).data ++ [rbrace]) from rfl]
    rw [ht0]
    rw [parseMetaL_shape t0 m hparse]
    rfl

/-! ## Sources table (src/models/database.py `DatabaseManager.add_source` /
`get_sources`, src/models/schemas.py `SourceType` / `DataSource`) -/

/-- `SourceType` enum from src/models/schemas.py. -/
inductive SourceType
  | secFiling
  | newsArticle
  | marketData
  | rssFeed
deriving DecidableEq, Repr

/-- `SourceType.value`. -/
def SourceType.value : SourceType → String
  | .secFiling => "sec_filing"
  | .newsArticle => "news_article"
  | .marketData => "market_data"
  | .rssFeed => "rss_feed"

/-- `SourceType(s)`: enum lookup by value, raising (None) for other strings. -/
def sourceTypeOfValue (s : String) : Option SourceType :=
  if s = "sec_filing" then some SourceType.secFiling
  else if s = "news_article" then some SourceType.newsArticle
  else if s = "market_data" then some SourceType.marketData
  else if s = "rss_feed" then some SourceType.rssFeed
  else none

theorem sourceTypeOfValue_value (t : SourceType) :
    sourceTypeOfValue t.value = some t := by
  cases t <;> rfl

/-- The in-memory `DataSource` record (pydantic model). -/
structure DataSource where
  runId : Nat
  type : SourceType
  url : Option String
  title : Option String
  publishedAt : Option DT
  checksum : Option String
  rawContent : Option String
  metadata : List (String × MetaV)
deriving DecidableEq, Repr

/-- `BaseIngestor.create_source` (src/ingestors/base.py lines 103-131): builds
a `DataSource` with the ingestor's source type; every argument defaults to
None/{} when the caller omits it. -/
def createSource (sourceType : SourceType) (runId : Nat)
    (url title : Option String) (publishedAt : Option DT)
    (rawContent checksum : Option String)
    (metadata : List (String × MetaV)) : DataSource :=
  { runId := runId, type := sourceType, url := url, title := title,
    publishedAt := publishedAt, checksum := checksum, rawContent := rawContent,
    metadata := metadata }

/-- The duck-typed `source_type` argument of `add_source`: an enum object or a
plain string (`source_type.value if hasattr(source_type, 'value') else
source_type`). -/
inductive TypeArg
  | enum (t : SourceType)
  | raw (s : String)
deriving DecidableEq, Repr

/-- The string actually inserted into the `type` column. -/
def TypeArg.colValue : TypeArg → String
  | .enum t => t.value
  | .raw s => s

/-- One row of the `sources` table.  TEXT cells hold the adapted strings:
`published_at` holds `str(datetime)`, `metadata` holds the JSON dump. -/
structure SrcRow where
  runId : Nat
  typeS : String
  url : Option String
  title : Option String
  publishedAt : Option String
  checksum : Option String
  rawContent : Option String
  metadataS : String
deriving DecidableEq, Repr

/-- `DatabaseManager.add_source` (src/models/database.py lines 159-177): one
INSERT appending a row with the adapted column values. -/
def addSource (db : List SrcRow) (runId : Nat) (sourceType : TypeArg)
    (url title : Option String) (publishedAt : Option DT)
    (checksum rawContent : Option String)
    (metadata : List (String × MetaV)) : List SrcRow :=
  db ++ [{ runId := runId, typeS := sourceType.colValue, url := url, title := title,
           publishedAt := publishedAt.map pyDTStr, checksum := checksum,
           rawContent := rawContent, metadataS := dictToJson metadata }]

/-- Rebuilding one `DataSource` from a row, as the loop body of `get_sources`
does: `SourceType(row[2])` and `datetime.fromisoformat(row[5])` raise on bad
data (modelled as `none`), `_json_to_dict` never raises. -/
def decodeRow (row : SrcRow) : Option DataSource := do
  let ty ← sourceTypeOfValue row.typeS
  let pub ← (match row.publishedAt with
    | none => some (none : Option DT)
    | some s => (parseIso s).map some)
  some { runId := row.runId, type := ty, url := row.url, title := row.title,
         publishedAt := pub, checksum := row.checksum, rawContent := row.rawContent,
         metadata := jsonToDict row.metadataS }

/-- `DatabaseManager.get_sources` (src/models/database.py lines 239-263):
SELECT the rows of the run in insertion order and rebuild them; any exception
while decoding makes the whole call return `[]`. -/
def getSources (db : List SrcRow) (runId : Nat) : List DataSource :=
  (((db.filter (fun r => r.runId = runId)).mapM decodeRow)).getD []

/-- The optional datetime is absent or a value Python can hold. -/
def pubOk : Option DT → Prop
  | none => True
  | some d => DTValid d

instance (p : Option DT) : Decidable (pubOk p) :=
  match p with
  | none => inferInstanceAs (Decidable True)
  | some d => inferInstanceAs (Decidable (DTValid d))

theorem decodeRow_addSource (runId : Nat) (ty : SourceType)
    (url title : Option String) (pub : Option DT) (chk raw : Option String)
    (meta : List (String × MetaV)) (hpub : pubOk pub) (hmeta : metaEscapeFree meta) :
    decodeRow { runId := runId, typeS := (TypeArg.enum ty).colValue, url := url,
                title := title, publishedAt := pub.map pyDTStr, checksum := chk,
                rawContent := raw, metadataS := dictToJson meta } =
      some { runId := runId, type := ty, url := url, title := title,
             publishedAt := pub, checksum := chk, rawContent := raw,
             metadata := meta } := by
  have hty : sourceTypeOfValue (TypeArg.enum ty).colValue = some ty :=
    sourceTypeOfValue_value ty
  have hjson := jsonToDict_dictToJson meta hmeta
  cases pub with
  | none => simp [decodeRow, hty, hjson]
  | some d =>
    have hdt := parseIso_pyDTStr d hpub
    simp [decodeRow, hty, hjson, Option.map_some, hdt]

/-- C8: a Source written via `add_source` and re-read via `get_sources` comes
back with identical type, url, title, published-at, checksum and metadata (and
raw content): in any database state whose existing rows for the run decode,
`get_sources` returns the previous records followed by exactly the written
one. -/
theorem C8_add_get_roundtrip (db : List SrcRow) (runId : Nat) (ty : SourceType)
    (url title : Option String) (pub : Option DT) (chk raw : Option String)
    (meta : List (String × MetaV)) (prev : List DataSource)
    (hprev : (db.filter (fun r => r.runId = runId)).mapM decodeRow = some prev)
    (hpub : pubOk pub) (hmeta : metaEscapeFree meta) :
    getSources (addSource db runId (TypeArg.enum ty) url title pub chk raw meta) runId =
      prev ++ [{ runId := runId, type := ty, url := url, title := title,
                 publishedAt := pub, checksum := chk, rawContent := raw,
                 metadata := meta }] := by
  unfold getSources addSource
  rw [List.filter_append]
  have hdec := decodeRow_addSource runId ty url title pub chk raw meta hpub hmeta
  generalize hrow : ({ runId := runId, typeS := (TypeArg.enum ty).colValue, url := url, title := title, publishedAt := pub.map pyDTStr, checksum := chk, rawContent := raw, metadataS := dictToJson meta } : SrcRow) = row
  rw [hrow] at hdec
  have hfilter : List.filter (fun r => r.runId = runId) [row] = [row] := by
    have hid : row.runId = runId := by rw [← hrow]
    simp [hid]
  rw [hfilter, List.mapM_append, hprev, List.mapM_cons, hdec, List.mapM_nil]
  simp

/-- C8 witness: a concrete source (news article, URL, title, timestamp,
checksum, content and metadata) written to the empty store and read back. -/
theorem C8_add_get_roundtrip_witness :
    ((([] : List SrcRow).filter (fun r => r.runId = 7)).mapM decodeRow =
      some ([] : List DataSource)) ∧
    pubOk (some ⟨2024, 1, 2, 3, 4, 5, 0⟩) ∧
    metaEscapeFree [("query", MetaV.vs "AAPL"), ("author", MetaV.vnull)] ∧
    getSources (addSource [] 7 (TypeArg.enum SourceType.newsArticle)
        (some "https://example.com/a") (some "Apple Q1") (some ⟨2024, 1, 2, 3, 4, 5, 0⟩)
        (some "abc123") (some "body text")
        [("query", MetaV.vs "AAPL"), ("author", MetaV.vnull)]) 7 =
      [] ++ [{ runId := 7, type := SourceType.newsArticle,
               url := some "https://example.com/a", title := some "Apple Q1",
               publishedAt := some ⟨2024, 1, 2, 3, 4, 5, 0⟩, checksum := some "abc123",
               rawContent := some "body text",
               metadata := [("query", MetaV.vs "AAPL"), ("author", MetaV.vnull)] }] :=
  ⟨rfl, by decide, by decide,
    C8_add_get_roundtrip [] 7 SourceType.newsArticle (some "https://example.com/a")
      (some "Apple Q1") (some ⟨2024, 1, 2, 3, 4, 5, 0⟩) (some "abc123") (some "body text")
      [("query", MetaV.vs "AAPL"), ("author", MetaV.vnull)] [] rfl (by decide) (by decide)⟩

/-! ## Python exceptions (used by the SEC ingestor and the orchestrator
models) -/

/-- The exception kinds the modelled code paths can raise. -/
inductive PyExc
  | typeError (msg : String)
  | validationError (model : String)
  | dbError (msg : String)
deriving DecidableEq, Repr

/-- `str(e)` for the modelled exceptions; a pydantic validation error renders
to its fixed header naming the model, never to caller-supplied text. -/
def pyStrExc : PyExc → String
  | .typeError m => m
  | .validationError m => "validation error for " ++ m
  | .dbError m => m

/-! ## SEC filing ingestor (src/ingestors/sec_ingestor.py
`SECIngestor._process_filing_file` / `_extract_filing_metadata`) -/

/-- Scans for the first occurrence of `lit` and returns what follows it
(`re.search` positioning for the literal part of the tag patterns). -/
def dropAfterLit (lit : List Char) : List Char → Option (List Char)
  | [] => if lit.isEmpty then some [] else none
  | h :: t =>
    if startsWithL lit (h :: t) then some ((h :: t).drop lit.length)
    else dropAfterLit lit t

/-- The capture of `<TAG>([^<]+)</TAG>` at the first opening tag: the
non-empty run of non-`<` characters after `<TAG>`, which must be followed by
the closing tag. -/
def captureTag (tag : String) (content : String) : Option String :=
  match dropAfterLit ("<" ++ tag ++ ">").data content.data with
  | none => none
  | some rest =>
    let cap := rest.takeWhile (fun c => !(c = '<'))
    if cap = [] then none
    else if startsWithL ("</" ++ tag ++ ">").data (rest.drop cap.length) then
      some (String.mk cap)
    else none

/-- `datetime.fromisoformat` on a `\d{4}-\d{2}-\d{2}` capture: a date at
midnight. -/
def parseDateOnly (s : String) : Option DT :=
  match takeDigits 4 s.data with
  | none => none
  | some (y, r1) =>
    match expectChar '-' r1 with
    | none => none
    | some r2 =>
      match takeDigits 2 r2 with
      | none => none
      | some (mo, r3) =>
        match expectChar '-' r3 with
        | none => none
        | some r4 =>
          match takeDigits 2 r4 with
          | none => none
          | some (dd, r5) =>
            let d : DT := { year := y, month := mo, day := dd, hour := 0,
                            minute := 0, second := 0, micro := 0 }
            if r5 = [] ∧ DTValid d then some d else none

/-- `_extract_filing_metadata`: the base entries plus the pattern-extracted
optional ones, and separately the parsed filing date (numeric values are
stored as their rendered decimal strings).  The CIK capture must be all
digits, mirroring `(\d+)`. -/
def extractFilingMetadata (content ticker filingType : String) (extractedAt : DT) :
    (List (String × MetaV)) × Option DT :=
  let fd := (captureTag "FILING-DATE" content).bind parseDateOnly
  let entries :=
    [("ticker", MetaV.vs ticker), ("filing_type", MetaV.vs filingType),
     ("file_size", MetaV.vs (toString content.length)),
     ("extracted_at", MetaV.vs (pyDTStr extractedAt))]
    ++ (match fd with
        | some d => [("filing_date", MetaV.vs (pyDTStr d))]
        | none => [])
    ++ (match captureTag "COMPANY-CONFORMED-NAME" content with
        | some s => [("company_name", MetaV.vs (pyStrip s))]
        | none => [])
    ++ (match (captureTag "CIK" content).bind (fun s =>
          if s.data ≠ [] ∧ ∀ c ∈ s.data, c.isDigit then some s else none) with
        | some s => [("cik", MetaV.vs s)]
        | none => [])
    ++ (match captureTag "TYPE" content with
        | some s => [("document_type", MetaV.vs (pyStrip s))]
        | none => [])
    ++ (match captureTag "ACCESSION-NUMBER" content with
        | some s => [("accession_number", MetaV.vs (pyStrip s))]
        | none => [])
  (entries, fd)

/-- The keyword call `self.create_source(url=..., title=..., published_at=...,
raw_content=..., metadata=...)`: binding the arguments of
`create_source(self, run_id, url=None, title=None, published_at=None,
raw_content=None, checksum=None, metadata=None)`.  A call that supplies no
`run_id` fails Python argument binding with a TypeError before the body
runs. -/
def createSourceKw (sourceType : SourceType) (runId : Option Nat)
    (url title : Option String) (publishedAt : Option DT)
    (rawContent checksum : Option String)
    (metadata : List (String × MetaV)) : Except PyExc DataSource :=
  match runId with
  | none => Except.error (PyExc.typeError
      "create_source() missing 1 required positional argument: run_id")
  | some rid =>
    Except.ok (createSource sourceType rid url title publishedAt rawContent checksum metadata)

/-- The title built at src/ingestors/sec_ingestor.py line 213. -/
def filingTitle (ticker filingType : String) (fd : Option DT) : String :=
  ticker ++ " " ++ filingType ++ " - " ++
    (match fd with
     | some d => pyDTStr d
     | none => "Unknown Date")

/-- `SECIngestor._process_filing_file` (src/ingestors/sec_ingestor.py lines
187-223): reads the file (its text is the `content` argument), extracts
metadata, computes `checksum = hashlib.md5(content.encode()).hexdigest()`
into a local that is never used again, then calls `create_source` without the
required `run_id` argument and without the `checksum` keyword; the TypeError
is caught by the enclosing `except`, which logs and returns None.  `md5hex`
stands for the external hashlib digest. -/
def processFilingFile (md5hex : String → String) (content ticker filingType filePath : String)
    (now : DT) : Option DataSource :=
  let md := extractFilingMetadata content ticker filingType now
  let _checksum := md5hex content
  match createSourceKw SourceType.secFiling none (some ("file://" ++ filePath))
      (some (filingTitle ticker filingType md.2)) md.2 (some content) none md.1 with
  | Except.ok s => some s
  | Except.error _ => none

/-- C3: the claim fails twice over on the code.  `_process_filing_file` never
emits a Source at all: the `create_source` call omits the required `run_id`
argument, so argument binding raises a TypeError and the handler returns
None for every successfully read filing.  And the source that the call
would otherwise build carries `checksum = None` for any run id — the md5
digest is computed into a dead local and never passed — so its checksum
would not equal the digest of the raw content either. -/
theorem C3_filing_checksum_bug (md5hex : String → String)
    (content ticker filingType filePath : String) (now : DT) :
    processFilingFile md5hex content ticker filingType filePath now = none ∧
    (∀ rid s,
      createSourceKw SourceType.secFiling (some rid) (some ("file://" ++ filePath))
        (some (filingTitle ticker filingType
          (extractFilingMetadata content ticker filingType now).2))
        (extractFilingMetadata content ticker filingType now).2 (some content) none
        (extractFilingMetadata content ticker filingType now).1 = Except.ok s →
      s.checksum = none ∧ s.checksum ≠ some (md5hex content) ∧
      s.rawContent = some content) := by
  constructor
  · rfl
  · intro rid s hs
    have hs2 : s = createSource SourceType.secFiling rid (some ("file://" ++ filePath))
        (some (filingTitle ticker filingType
          (extractFilingMetadata content ticker filingType now).2))
        (extractFilingMetadata content ticker filingType now).2 (some content) none
        (extractFilingMetadata content ticker filingType now).1 := by
      have := hs
      unfold createSourceKw at this
      exact (Except.ok.inj this).symm
    subst hs2
    exact ⟨rfl, by simp [createSource], rfl⟩

/-- C3 witness-style evaluation at the failing input: a concrete filing body
is read successfully, yet no Source is emitted. -/
theorem C3_filing_checksum_bug_witness :
    processFilingFile (fun s => "md5:" ++ s)
      "<FILING-DATE>2023-01-15</FILING-DATE>hello" "AAPL" "10-K" "cache/f.txt"
      ⟨2024, 1, 2, 3, 4, 5, 0⟩ = none ∧
    ((∀ rid s,
      createSourceKw SourceType.secFiling (some rid) (some ("file://" ++ "cache/f.txt"))
        (some (filingTitle "AAPL" "10-K"
          (extractFilingMetadata "<FILING-DATE>2023-01-15</FILING-DATE>hello" "AAPL" "10-K"
            ⟨2024, 1, 2, 3, 4, 5, 0⟩).2))
        (extractFilingMetadata "<FILING-DATE>2023-01-15</FILING-DATE>hello" "AAPL" "10-K"
          ⟨2024, 1, 2, 3, 4, 5, 0⟩).2 (some "<FILING-DATE>2023-01-15</FILING-DATE>hello") none
        (extractFilingMetadata "<FILING-DATE>2023-01-15</FILING-DATE>hello" "AAPL" "10-K"
          ⟨2024, 1, 2, 3, 4, 5, 0⟩).1 = Except.ok s →
      s.checksum = none ∧
      s.checksum ≠ some ((fun x => "md5:" ++ x) "<FILING-DATE>2023-01-15</FILING-DATE>hello") ∧
      s.rawContent = some "<FILING-DATE>2023-01-15</FILING-DATE>hello")) :=
  C3_filing_checksum_bug (fun s => "md5:" ++ s)
    "<FILING-DATE>2023-01-15</FILING-DATE>hello" "AAPL" "10-K" "cache/f.txt"
    ⟨2024, 1, 2, 3, 4, 5, 0⟩

/-! ## Market data ingestor (src/ingestors/market_ingestor.py).  The yfinance
payloads arrive already fetched; Python's numeric f-string formatting is the
external `render` collaborator, applied to the exact rationals the code
computes.  pandas `std` involves a square root, so the annualised-volatility
factor arrives as the `annStd` collaborator. -/

/-- One OHLCV bar of `ticker.history(...)`. -/
structure Bar where
  date : DT
  openPrice : ℚ
  high : ℚ
  low : ℚ
  close : ℚ
  volume : ℚ
deriving DecidableEq, Repr

/-- `date.strftime('%Y-%m-%d')`. -/
def dateStr (d : DT) : String :=
  String.mk (padNum 4 d.year ++ '-' :: (padNum 2 d.month ++ '-' :: padNum 2 d.day))

/-- An optional rendered value as a metadata entry value. -/
def optMV : Option String → MetaV
  | some s => MetaV.vs s
  | none => MetaV.vnull

/-- The last element of an indicator series (`.iloc[-1]`), NaN when empty. -/
def lastF (l : List FVal) : FVal :=
  (l.getLast?).getD FVal.nan

/-- `_format_ticker_info`: the header, a 50-character rule, then one line per
present key field (numeric values pre-rendered by `render`, carried in the
`info` map). -/
def formatTickerInfo (info : List (String × Option String)) : String :=
  let keyFields : List (String × String) :=
    [("Company Name", "longName"), ("Sector", "sector"), ("Industry", "industry"),
     ("Market Cap", "marketCap"), ("Enterprise Value", "enterpriseValue"),
     ("P/E Ratio", "trailingPE"), ("Forward P/E", "forwardPE"),
     ("Price to Book", "priceToBook"), ("Dividend Yield", "dividendYield"),
     ("Beta", "beta"), ("52 Week High", "fiftyTwoWeekHigh"),
     ("52 Week Low", "fiftyTwoWeekLow")]
  let lines := keyFields.filterMap (fun lk =>
    match (info.lookup lk.2).join with
    | some v => some (lk.1 ++ ": " ++ v)
    | none => none)
  joinWith "\n" ("COMPANY INFORMATION" :: String.mk (List.replicate 50 '=') :: lines)

/-- The metadata dict of `_get_ticker_info`. -/
def tickerInfoMetadata (ticker : String) (info : List (String × Option String))
    (now : DT) : List (String × MetaV) :=
  [("ticker", MetaV.vs ticker),
   ("company_name", MetaV.vs (((info.lookup "longName").join).getD "Unknown")),
   ("sector", MetaV.vs (((info.lookup "sector").join).getD "Unknown")),
   ("industry", MetaV.vs (((info.lookup "industry").join).getD "Unknown")),
   ("market_cap", optMV ((info.lookup "marketCap").join)),
   ("enterprise_value", optMV ((info.lookup "enterpriseValue").join)),
   ("pe_ratio", optMV ((info.lookup "trailingPE").join)),
   ("forward_pe", optMV ((info.lookup "forwardPE").join)),
   ("price_to_book", optMV ((info.lookup "priceToBook").join)),
   ("dividend_yield", optMV ((info.lookup "dividendYield").join)),
   ("beta", optMV ((info.lookup "beta").join)),
   ("extracted_at", MetaV.vs (pyDTStr now))]

/-- `MarketIngestor._get_ticker_info` (src/ingestors/market_ingestor.py lines
143-202): None when the fetch failed or returned a falsy dict; otherwise one
Source built by `create_source` with `url`, `title`, `published_at`,
`raw_content` and `metadata` — and no `checksum` argument. -/
def getTickerInfo (info : Option (List (String × Option String))) (runId : Nat)
    (ticker : String) (now : DT) : Option DataSource :=
  match info with
  | none => none
  | some info =>
    if info = [] then none
    else some (createSource SourceType.marketData runId
      (some ("yfinance://" ++ ticker ++ "/info"))
      (some (ticker ++ " Company Information")) (some now)
      (some (formatTickerInfo info)) none (tickerInfoMetadata ticker info now))

/-- pandas `Series.pct_change().dropna()`: consecutive ratios minus one
(float division by a zero close yields ±inf in pandas; the value only feeds
the external `annStd`, so plain rational division is used here). -/
def pctChange (l : List ℚ) : List ℚ :=
  List.zipWith (fun b a => b / a - 1) (l.drop 1) l

/-- The computed metrics of `_get_historical_data` as exact rationals plus
the two rolling means. -/
def histCloses (hist : List Bar) : List ℚ :=
  hist.map (fun b => b.close)

/-- `_format_historical_data`: header, rule, the metric lines (conditionally
including the moving averages), and the last five bars. -/
def formatHistoricalData (render : ℚ → String) (hist : List Bar)
    (period : String) (vol : ℚ) : String :=
  let closes := histCloses hist
  let latest := (closes.getLast?).getD 0
  let first := (closes.head?).getD 0
  let change := latest - first
  let changePct := if first = 0 then 0 else change / first * 100
  let ma20 := lastF (rollingMean 20 closes)
  let ma50 := lastF (rollingMean 50 closes)
  let volumeAvg := if hist.length = 0 then 0
    else (hist.map (fun b => b.volume)).sum / (hist.length : ℚ)
  let maLines :=
    (match ma20 with
     | FVal.fin v => ["20-Day Moving Average: $" ++ render v]
     | _ => []) ++
    (match ma50 with
     | FVal.fin v => ["50-Day Moving Average: $" ++ render v]
     | _ => [])
  let recent := (hist.drop (hist.length - 5)).map (fun b =>
    dateStr b.date ++ ": Open=$" ++ render b.openPrice ++ ", Close=$" ++ render b.close ++
      ", Volume=" ++ render b.volume)
  joinWith "\n" (["HISTORICAL PRICE DATA", String.mk (List.replicate 50 '='),
    "Period: " ++ period, "Data Points: " ++ toString hist.length,
    "Latest Price: $" ++ render latest,
    "Price Change: $" ++ render change ++ " (" ++ render changePct ++ "%)",
    "Volatility (Annualized): " ++ render vol] ++ maLines ++
    ["Average Volume: " ++ render volumeAvg, "", "Recent Prices:",
     String.mk (List.replicate 20 '-')] ++ recent)

/-- The metadata dict of `_get_historical_data` (`ma_20`/`ma_50` become null
when the rolling mean is still NaN, mirroring the `pd.isna` checks). -/
def histMetadata (render : ℚ → String) (hist : List Bar)
    (ticker period interval : String) (vol : ℚ) (now : DT) : List (String × MetaV) :=
  let closes := histCloses hist
  let latest := (closes.getLast?).getD 0
  let first := (closes.head?).getD 0
  let change := latest - first
  let changePct := if first = 0 then 0 else change / first * 100
  let volumeAvg := if hist.length = 0 then 0
    else (hist.map (fun b => b.volume)).sum / (hist.length : ℚ)
  [("ticker", MetaV.vs ticker), ("period", MetaV.vs period),
   ("interval", MetaV.vs interval),
   ("data_points", MetaV.vs (toString hist.length)),
   ("latest_price", MetaV.vs (render latest)),
   ("price_change", MetaV.vs (render change)),
   ("price_change_pct", MetaV.vs (render changePct)),
   ("volatility", MetaV.vs (render vol)),
   ("ma_20", match lastF (rollingMean 20 closes) with
     | FVal.fin v => MetaV.vs (render v)
     | _ => MetaV.vnull),
   ("ma_50", match lastF (rollingMean 50 closes) with
     | FVal.fin v => MetaV.vs (render v)
     | _ => MetaV.vnull),
   ("volume_avg", MetaV.vs (render volumeAvg)),
   ("extracted_at", MetaV.vs (pyDTStr now))]

/-- `MarketIngestor._get_historical_data` (src/ingestors/market_ingestor.py
lines 204-272): None when the fetch failed or the frame is empty; otherwise
one Source with the computed metrics in content and metadata — `create_source`
is again called without a `checksum` argument.  `annStd` is pandas
`returns.std() * 252 ** 0.5`. -/
def getHistoricalData (hist : Option (List Bar)) (render : ℚ → String)
    (annStd : List ℚ → ℚ) (runId : Nat) (ticker period interval : String)
    (now : DT) : Option DataSource :=
  match hist with
  | none => none
  | some hist =>
    if hist = [] then none
    else
      let vol := annStd (pctChange (histCloses hist))
      some (createSource SourceType.marketData runId
        (some ("yfinance://" ++ ticker ++ "/history"))
        (some (ticker ++ " Historical Data (" ++ period ++ ")")) (some now)
        (some (formatHistoricalData render hist period vol)) none
        (histMetadata render hist ticker period interval vol now))

/-- The ratio keys of `fetch_ratios`, grouped as `_format_financial_ratios`
prints them. -/
def ratioCategories : List (String × List String) :=
  [("Valuation Ratios", ["pe_ratio", "forward_pe", "price_to_book",
      "price_to_sales", "enterprise_value_to_ebitda"]),
   ("Profitability Ratios", ["return_on_equity", "return_on_assets",
      "profit_margin", "operating_margin"]),
   ("Financial Strength", ["current_ratio", "debt_to_equity", "quick_ratio"])]

/-- `key.replace('_', ' ').title()`. -/
def titleizeKey (k : String) : String :=
  let words := (k.data.map (fun c => if c = '_' then ' ' else c))
  let rec go : List Char → Bool → List Char
    | [], _ => []
    | c :: t, atStart =>
      (if atStart then c.toUpper else c) :: go t (c = ' ')
  String.mk (go words true)

/-- `_format_financial_ratios`: header and rule, then each category with its
underline and the present ratio lines (values pre-rendered). -/
def formatRatioTable (ratios : List (String × Option String)) : String :=
  let catLines := ratioCategories.map (fun cat =>
    ["", cat.1 ++ ":", String.mk (List.replicate cat.1.length '-')] ++
      cat.2.filterMap (fun key =>
        match (ratios.lookup key).join with
        | some v => some (titleizeKey key ++ ": " ++ v)
        | none => none))
  joinWith "\n" (["FINANCIAL RATIOS", String.mk (List.replicate 50 '=')] ++
    catLines.foldr (fun a b => a ++ b) [])

/-- `MarketIngestor._get_financial_ratios` (src/ingestors/market_ingestor.py
lines 274-346): None when the fetch failed or returned a falsy dict;
otherwise one Source whose metadata nests the ratios dict — with no
`checksum` argument. -/
def getRatiosSource (ratios : Option (List (String × Option String)))
    (runId : Nat) (ticker : String) (now : DT) : Option DataSource :=
  match ratios with
  | none => none
  | some ratios =>
    if ratios = [] then none
    else some (createSource SourceType.marketData runId
      (some ("yfinance://" ++ ticker ++ "/ratios"))
      (some (ticker ++ " Financial Ratios")) (some now)
      (some (formatRatioTable ratios)) none
      [("ticker", MetaV.vs ticker), ("ratios", MetaV.vobj ratios),
       ("extracted_at", MetaV.vs (pyDTStr now))])

/-- `_format_earnings_data`: header and rule, then the historical-earnings
and earnings-dates sections when present (rows pre-rendered). -/
def formatEarningsData (earnings earningsDates : Option (List String)) : String :=
  let earnLines := match earnings with
    | some rows => ["Historical Earnings: " ++ toString rows.length ++ " periods"] ++
        (if rows.length > 0 then
          ["", "Recent Earnings:", String.mk (List.replicate 20 '-')] ++
            rows.drop (rows.length - 5)
        else [])
    | none => []
  let dateLines := match earningsDates with
    | some rows => ["", "Earnings Dates: " ++ toString rows.length ++ " dates"] ++
        (if rows.length > 0 then
          ["", "Upcoming Earnings:", String.mk (List.replicate 20 '-')] ++
            rows.drop (rows.length - 5)
        else [])
    | none => []
  joinWith "\n" (["EARNINGS DATA", String.mk (List.replicate 50 '=')] ++
    earnLines ++ dateLines)

/-- `MarketIngestor._get_earnings_data` (src/ingestors/market_ingestor.py
lines 348-416): the fetch returns None unless at least one of the two frames
has data; then one Source with the counts in metadata — with no `checksum`
argument. -/
def getEarningsData (fetched : Option (Option (List String) × Option (List String)))
    (runId : Nat) (ticker : String) (now : DT) : Option DataSource :=
  match fetched with
  | none => none
  | some (earnings, earningsDates) =>
    if earnings = none ∧ earningsDates = none then none
    else some (createSource SourceType.marketData runId
      (some ("yfinance://" ++ ticker ++ "/earnings"))
      (some (ticker ++ " Earnings Data")) (some now)
      (some (formatEarningsData earnings earningsDates)) none
      [("ticker", MetaV.vs ticker),
       ("earnings_count", MetaV.vs (toString ((earnings.getD []).length))),
       ("earnings_dates_count", MetaV.vs (toString ((earningsDates.getD []).length))),
       ("extracted_at", MetaV.vs (pyDTStr now))])

theorem joinWith_cons_ne_empty (sep : String) (h : String) (t : List String)
    (hh : h ≠ "") : joinWith sep (h :: t) ≠ "" := by
  cases t with
  | nil => simpa [joinWith] using hh
  | cons b t2 =>
    show h ++ sep ++ joinWith sep (b :: t2) ≠ ""
    intro hx
    apply hh
    have hdata := congrArg String.data hx
    rw [String.data_append, String.data_append] at hdata
    have hnil : h.data = [] := by
      rcases List.append_eq_nil.mp (List.append_eq_nil.mp hdata).1 with ⟨h1, _⟩
      exact h1
    cases h with
    | mk d =>
      have hd : d = [] := hnil
      subst hd
      rfl

/-- C10: each of the four market sources that the ingestor can emit (ticker
info, historical data, financial ratios, earnings) has `checksum = None`
while its `raw_content` is non-empty text, so market sources are never
deduplicable by checksum. -/
theorem C10_market_checksum_none (info : Option (List (String × Option String)))
    (hist : Option (List Bar)) (render : ℚ → String) (annStd : List ℚ → ℚ)
    (ratios : Option (List (String × Option String)))
    (earn : Option (Option (List String) × Option (List String)))
    (runId : Nat) (ticker period interval : String) (now : DT) :
    (∀ s, getTickerInfo info runId ticker now = some s →
      s.checksum = none ∧ ∃ t, s.rawContent = some t ∧ t ≠ "") ∧
    (∀ s, getHistoricalData hist render annStd runId ticker period interval now = some s →
      s.checksum = none ∧ ∃ t, s.rawContent = some t ∧ t ≠ "") ∧
    (∀ s, getRatiosSource ratios runId ticker now = some s →
      s.checksum = none ∧ ∃ t, s.rawContent = some t ∧ t ≠ "") ∧
    (∀ s, getEarningsData earn runId ticker now = some s →
      s.checksum = none ∧ ∃ t, s.rawContent = some t ∧ t ≠ "") := by
  refine ⟨?_, ?_, ?_, ?_⟩
  · intro s hs
    match info with
    | none => exact absurd hs (by simp [getTickerInfo])
    | some info =>
      unfold getTickerInfo at hs
      dsimp only at hs
      by_cases hinfo : info = []
      · rw [if_pos hinfo] at hs
        exact absurd hs (by simp)
      · rw [if_neg hinfo] at hs
        obtain rfl := (Option.some.inj hs).symm
        refine ⟨rfl, formatTickerInfo info, rfl, ?_⟩
        exact joinWith_cons_ne_empty "\n" "COMPANY INFORMATION" _ (by decide)
  · intro s hs
    match hist with
    | none => exact absurd hs (by simp [getHistoricalData])
    | some hist =>
      unfold getHistoricalData at hs
      dsimp only at hs
      by_cases hh : hist = []
      · rw [if_pos hh] at hs
        exact absurd hs (by simp)
      · rw [if_neg hh] at hs
        obtain rfl := (Option.some.inj hs).symm
        refine ⟨rfl, _, rfl, ?_⟩
        exact joinWith_cons_ne_empty "\n" "HISTORICAL PRICE DATA" _ (by decide)
  · intro s hs
    match ratios with
    | none => exact absurd hs (by simp [getRatiosSource])
    | some ratios =>
      unfold getRatiosSource at hs
      dsimp only at hs
      by_cases hr : ratios = []
      · rw [if_pos hr] at hs
        exact absurd hs (by simp)
      · rw [if_neg hr] at hs
        obtain rfl := (Option.some.inj hs).symm
        refine ⟨rfl, _, rfl, ?_⟩
        exact joinWith_cons_ne_empty "\n" "FINANCIAL RATIOS" _ (by decide)
  · intro s hs
    match earn with
    | none => exact absurd hs (by simp [getEarningsData])
    | some (earnings, earningsDates) =>
      unfold getEarningsData at hs
      dsimp only at hs
      by_cases he : earnings = none ∧ earningsDates = none
      · rw [if_pos he] at hs
        exact absurd hs (by simp)
      · rw [if_neg he] at hs
        obtain rfl := (Option.some.inj hs).symm
        refine ⟨rfl, _, rfl, ?_⟩
        exact joinWith_cons_ne_empty "\n" "EARNINGS DATA" _ (by decide)

/-- C10 witness: the four constructors evaluated on concrete fetched
payloads. -/
theorem C10_market_checksum_none_witness :
    (∀ s, getTickerInfo (some [("longName", some "Apple Inc.")]) 3 "AAPL"
        ⟨2024, 1, 2, 3, 4, 5, 0⟩ = some s →
      s.checksum = none ∧ ∃ t, s.rawContent = some t ∧ t ≠ "") ∧
    (∀ s, getHistoricalData
        (some [{ date := ⟨2024, 1, 2, 0, 0, 0, 0⟩, openPrice := 10, high := 11, low := 9,
                 close := 10, volume := 1000 }]) (fun q => toString q.num) (fun _ => 0)
        3 "AAPL" "1y" "1d" ⟨2024, 1, 2, 3, 4, 5, 0⟩ = some s →
      s.checksum = none ∧ ∃ t, s.rawContent = some t ∧ t ≠ "") ∧
    (∀ s, getRatiosSource (some [("pe_ratio", some "30.12")]) 3 "AAPL"
        ⟨2024, 1, 2, 3, 4, 5, 0⟩ = some s →
      s.checksum = none ∧ ∃ t, s.rawContent = some t ∧ t ≠ "") ∧
    (∀ s, getEarningsData (some (some ["2023: EPS=6.1, Revenue=383B"], none)) 3 "AAPL"
        ⟨2024, 1, 2, 3, 4, 5, 0⟩ = some s →
      s.checksum = none ∧ ∃ t, s.rawContent = some t ∧ t ≠ "") :=
  C10_market_checksum_none (some [("longName", some "Apple Inc.")])
    (some [{ date := ⟨2024, 1, 2, 0, 0, 0, 0⟩, openPrice := 10, high := 11, low := 9,
             close := 10, volume := 1000 }]) (fun q => toString q.num) (fun _ => 0)
    (some [("pe_ratio", some "30.12")]) (some (some ["2023: EPS=6.1, Revenue=383B"], none))
    3 "AAPL" "1y" "1d" ⟨2024, 1, 2, 3, 4, 5, 0⟩

/-! ## Orchestrator (src/app.py `run_sync_analysis` / `generate_simple_memo`),
the AI analyzer (src/core/ai_analyzer.py) and the pydantic item models
(src/models/schemas.py).  pydantic validation of a constructor call is a
fallible function: `RiskItem` and `OpportunityItem` declare `confidence` and
`severity`/`potential_impact` as required (`Field(...)`), and `source_ids`
as `List[int]`, so a call omitting the former or passing non-numeric strings
for the latter raises a `ValidationError`. -/

/-- pydantic `RiskItem` (schemas.py lines 62-68). -/
structure RiskItem where
  risk : String
  rationale : String
  sourceIds : List Int
  confidence : ℚ
  severity : String
deriving DecidableEq, Repr

/-- pydantic `OpportunityItem` (schemas.py lines 70-76). -/
structure OpportunityItem where
  opportunity : String
  rationale : String
  sourceIds : List Int
  confidence : ℚ
  potentialImpact : String
deriving DecidableEq, Repr

/-- pydantic `MetricItem` (schemas.py lines 78-85). -/
structure MetricItem where
  metric : String
  value : String
  trend : String
  period : String
  sourceIds : List Int
  context : Option String
deriving DecidableEq, Repr

/-- A `RiskItem(...)` call: `none` for an omitted keyword argument; the
`source_ids` strings must coerce to int and `confidence` must be present and
within `[0, 1]`, `severity` present, else pydantic raises. -/
def mkRiskItem (risk rationale : String) (sourceIds : List String)
    (confidence : Option ℚ) (severity : Option String) : Except PyExc RiskItem :=
  match confidence, severity, sourceIds.mapM (fun s => s.toInt?) with
  | some c, some sev, some ids =>
    if 0 ≤ c ∧ c ≤ 1 then
      Except.ok { risk := risk, rationale := rationale, sourceIds := ids,
                  confidence := c, severity := sev }
    else Except.error (PyExc.validationError "RiskItem")
  | _, _, _ => Except.error (PyExc.validationError "RiskItem")

/-- An `OpportunityItem(...)` call, validated the same way. -/
def mkOpportunityItem (opportunity rationale : String) (sourceIds : List String)
    (confidence : Option ℚ) (potentialImpact : Option String) :
    Except PyExc OpportunityItem :=
  match confidence, potentialImpact, sourceIds.mapM (fun s => s.toInt?) with
  | some c, some pi, some ids =>
    if 0 ≤ c ∧ c ≤ 1 then
      Except.ok { opportunity := opportunity, rationale := rationale,
                  sourceIds := ids, confidence := c, potentialImpact := pi }
    else Except.error (PyExc.validationError "OpportunityItem")
  | _, _, _ => Except.error (PyExc.validationError "OpportunityItem")

/-- A `MetricItem(...)` call: every required field is passed at the call
sites, so only the `source_ids` coercion can fail. -/
def mkMetricItem (metric value trend period : String) (sourceIds : List String)
    (context : Option String) : Except PyExc MetricItem :=
  match sourceIds.mapM (fun s => s.toInt?) with
  | some ids =>
    Except.ok { metric := metric, value := value, trend := trend,
                period := period, sourceIds := ids, context := context }
  | none => Except.error (PyExc.validationError "MetricItem")

/-- The external AI collaborators of `AIAnalyzer` as `generate_simple_memo`
sees them: whether the sentiment classifier loaded, which (chunk index,
sentence) pairs its AI paths select as risk/opportunity sentences,
`_extract_key_phrase`, and the transformer summarizer's output (`none` when
it is unavailable or fails, which falls back). -/
structure AIEnv where
  classifierLoaded : Bool
  riskSentences : List (Nat × String)
  oppSentences : List (Nat × String)
  keyPhrase : String → String
  summaryResult : List String → Option String

/-- One accepted risk sentence inside the AI loop of
`AIAnalyzer.extract_risks` (src/core/ai_analyzer.py lines 118-140): the
`RiskItem(...)` call omits `confidence` and `severity`, and its failure is
caught by the inner handler (`continue`), leaving the accumulator unchanged. -/
def riskStep (ai : AIEnv) (acc : List RiskItem) (is : Nat × String) : List RiskItem :=
  if ai.keyPhrase is.2 ≠ "" ∧ acc.length < 5 then
    match mkRiskItem (ai.keyPhrase is.2) (pyStrip is.2)
        ["S" ++ toString (is.1 + 1)] none none with
    | Except.ok r => acc ++ [r]
    | Except.error _ => acc
  else acc

/-- `AIAnalyzer._extract_risks_fallback` (lines 279-294): constructs a
`RiskItem` per keyword of `risk_keywords[:3]` with no `confidence` or
`severity`, outside any handler. -/
def extractRisksFallback : Except PyExc (List RiskItem) :=
  (["competition", "regulatory", "market volatility"]).foldlM
    (fun acc keyword =>
      (mkRiskItem (titleizeKey keyword ++ " challenges")
        ("Industry-wide " ++ keyword ++ " concerns may impact performance")
        ["S1"] none none).map (fun r => acc ++ [r])) []

/-- `AIAnalyzer.extract_risks` (lines 76-150): fallback when the classifier
is unavailable; otherwise the AI loop, and the fallback again when it
collected nothing. -/
def extractRisks (ai : AIEnv) : Except PyExc (List RiskItem) :=
  if ai.classifierLoaded = false then extractRisksFallback
  else
    let risks := ai.riskSentences.foldl (riskStep ai) []
    if risks = [] then extractRisksFallback else Except.ok (risks.take 3)

/-- The opportunity counterpart of `riskStep` (lines 193-213). -/
def oppStep (ai : AIEnv) (acc : List OpportunityItem) (is : Nat × String) :
    List OpportunityItem :=
  if ai.keyPhrase is.2 ≠ "" ∧ acc.length < 5 then
    match mkOpportunityItem (ai.keyPhrase is.2) (pyStrip is.2)
        ["S" ++ toString (is.1 + 1)] none none with
    | Except.ok r => acc ++ [r]
    | Except.error _ => acc
  else acc

/-- `AIAnalyzer._extract_opportunities_fallback` (lines 296-310). -/
def extractOpportunitiesFallback : Except PyExc (List OpportunityItem) :=
  (["market expansion", "digital transformation", "innovation"]).foldlM
    (fun acc keyword =>
      (mkOpportunityItem (titleizeKey keyword ++ " potential")
        ("Potential for growth through " ++ keyword)
        ["S1"] none none).map (fun r => acc ++ [r])) []

/-- `AIAnalyzer.extract_opportunities` (lines 152-222). -/
def extractOpportunities (ai : AIEnv) : Except PyExc (List OpportunityItem) :=
  if ai.classifierLoaded = false then extractOpportunitiesFallback
  else
    let opps := ai.oppSentences.foldl (oppStep ai) []
    if opps = [] then extractOpportunitiesFallback else Except.ok (opps.take 3)

/-- `AIAnalyzer._generate_summary_fallback` (lines 312-319). -/
def generateSummaryFallback (textChunks : List String) : String :=
  if textChunks = [] then "Analysis completed with limited data available."
  else "Analysis of available data sources including financial filings, news articles, and market data. Summary generated from " ++ toString textChunks.length ++ " source(s)."

/-- `AIAnalyzer.generate_summary` (lines 224-265): every failure path of the
external summarizer returns the fallback, so this never raises. -/
def generateSummary (ai : AIEnv) (textChunks : List String) : String :=
  if textChunks = [] then generateSummaryFallback textChunks
  else
    match ai.summaryResult textChunks with
    | some s => s
    | none => generateSummaryFallback textChunks

/-- The `try` block of `generate_simple_memo` (src/app.py lines 418-426). -/
def aiTry (ai : AIEnv) (textChunks : List String) :
    Except PyExc (List RiskItem × List OpportunityItem × String) := do
  let r ← extractRisks ai
  let o ← extractOpportunities ai
  Except.ok (r, o, generateSummary ai textChunks)

/-- The AI insights as `generate_simple_memo` holds them after its
`try/except` (src/app.py lines 417-432): on any exception, empty lists and
the short fallback summary. -/
def aiInsights (ai : AIEnv) (ticker : String) (sources : List DataSource)
    (textChunks : List String) : List RiskItem × List OpportunityItem × String :=
  match aiTry ai textChunks with
  | Except.ok v => v
  | Except.error _ =>
    ([], [], ticker ++ " analysis completed with " ++ toString sources.length ++
      " data sources.")

/-- The text chunks collected from the sources (src/app.py lines 404-415):
truthy raw content, stripped, truncated to 1000 characters plus an ellipsis,
kept only when longer than 50 characters. -/
def textChunksOf (sources : List DataSource) : List String :=
  sources.filterMap (fun s =>
    match s.rawContent with
    | none => none
    | some raw =>
      if raw = "" then none
      else
        let content := pyStrip raw
        let content := if content.length > 1000 then
            String.mk (content.data.take 1000) ++ "..." else content
        if content.length > 50 then some content else none)

/-- The keys of `source_counts` in insertion order (first occurrence of each
type value). -/
def sourceTypeKeys (sources : List DataSource) : List String :=
  sources.foldl (fun acc s =>
    if acc.contains s.type.value then acc else acc ++ [s.type.value]) []

/-- The fallback risk list of `generate_simple_memo` (src/app.py lines
436-452): three `RiskItem(...)` calls, each without `confidence` or
`severity` and with string `source_ids`. -/
def appRiskFallback : Except PyExc (List RiskItem) := do
  let r1 ← mkRiskItem "Market volatility"
    "General market risks apply to all equity investments" ["S1"] none none
  let r2 ← mkRiskItem "Competitive pressures"
    "Industry competition may impact market share" ["S2"] none none
  let r3 ← mkRiskItem "Regulatory environment"
    "Changes in regulations could affect operations" ["S3"] none none
  Except.ok [r1, r2, r3]

/-- The fallback opportunity list (src/app.py lines 454-471). -/
def appOppFallback : Except PyExc (List OpportunityItem) := do
  let o1 ← mkOpportunityItem "Market expansion"
    "Potential for growth in new markets or segments" ["S1"] none none
  let o2 ← mkOpportunityItem "Innovation potential"
    "Technology and product development opportunities" ["S2"] none none
  let o3 ← mkOpportunityItem "Strategic partnerships"
    "Potential for beneficial business relationships" ["S3"] none none
  Except.ok [o1, o2, o3]

/-- The dict `generate_simple_memo` returns on success. -/
structure MemoData where
  tldr : String
  risks : List RiskItem
  opportunities : List OpportunityItem
  metrics : List MetricItem
  htmlContent : String
deriving DecidableEq, Repr

/-- `generate_simple_memo` (src/app.py lines 397-511); any pydantic
validation failure outside the `try` block propagates to the caller. -/
def generateSimpleMemo (ai : AIEnv) (ticker : String) (sources : List DataSource) :
    Except PyExc MemoData := do
  let sourceTypes := sourceTypeKeys sources
  let textChunks := textChunksOf sources
  let ins := aiInsights ai ticker sources textChunks
  let aiRisks ← if ins.1 = [] then appRiskFallback else Except.ok ins.1
  let aiOpps ← if ins.2.1 = [] then appOppFallback else Except.ok ins.2.1
  let aiSummary := if ins.2.2 = "" ∨ ins.2.2.length < 50 then
      ticker ++ " analysis completed with " ++ toString sources.length ++
        " data sources covering market data, news, and regulatory filings. Analysis identifies key business risks and growth opportunities."
    else ins.2.2
  let m1 ← mkMetricItem "Data Sources" (toString sources.length) "stable" "Current"
    ["S1"] (some ("Total sources analyzed: " ++ toString sources.length))
  let m2 ← mkMetricItem "Source Types" (toString sourceTypes.length) "up" "Current"
    ["S2"] (some ("Data diversity: " ++ joinWith ", " sourceTypes))
  let m3 ← mkMetricItem "AI Insights" (toString (aiRisks.length + aiOpps.length))
    "up" "Current" ["S3"]
    (some ("AI-generated insights: " ++ toString aiRisks.length ++ " risks, " ++
      toString aiOpps.length ++ " opportunities"))
  let memo : MemoData :=
    { tldr := aiSummary, risks := aiRisks.take 3,
      opportunities := aiOpps.take 3, metrics := [m1, m2, m3],
      htmlContent := "<h1>" ++ ticker ++ " AI Analysis Report</h1><p>" ++ aiSummary ++
        "</p><p><strong>Sources analyzed:</strong> " ++ toString sources.length ++ "</p>" }
  Except.ok memo

/-- The collaborators of `run_sync_analysis`: each ingestor's `ingest`
outcome, the database `add_source` and `save_memo` behaviours, and the AI
environment. -/
structure OrchEnv where
  marketRes : Except PyExc (List DataSource)
  newsRes : Except PyExc (List DataSource)
  secRes : Except PyExc (List DataSource)
  addSourceRes : DataSource → Except PyExc Nat
  saveMemoRes : MemoData → Except PyExc Nat
  ai : AIEnv

/-- The run's final database state as `run_sync_analysis` leaves it. -/
structure RunOutcome where
  finalStatus : RunStatus
  errorMessage : Option String
deriving DecidableEq, Repr

/-- One ingestor block (src/app.py lines 313-353): its exception is caught
and logged, contributing no sources. -/
def ingested (r : Except PyExc (List DataSource)) : List DataSource :=
  match r with
  | Except.ok l => l
  | Except.error _ => []

/-- `run_sync_analysis` (src/app.py lines 300-395): collect sources from the
three ingestor blocks, save each source with a per-source handler that only
logs failures, generate and save the memo, mark completed; the outer handler
marks failed with `str(e)`. -/
def runSyncAnalysis (env : OrchEnv) (query : String) : RunOutcome :=
  let sources := ingested env.marketRes ++ ingested env.newsRes ++ ingested env.secRes
  let _saved := sources.map (fun s => env.addSourceRes s)
  match generateSimpleMemo env.ai query sources with
  | Except.error e => { finalStatus := RunStatus.failed, errorMessage := some (pyStrExc e) }
  | Except.ok memo =>
    match env.saveMemoRes memo with
    | Except.error e => { finalStatus := RunStatus.failed, errorMessage := some (pyStrExc e) }
    | Except.ok _ => { finalStatus := RunStatus.completed, errorMessage := none }

theorem mkRiskItem_none_confidence (risk rationale : String) (ids : List String)
    (sev : Option String) :
    mkRiskItem risk rationale ids none sev =
      Except.error (PyExc.validationError "RiskItem") := rfl

theorem riskStep_id (ai : AIEnv) (acc : List RiskItem) (is : Nat × String) :
    riskStep ai acc is = acc := by
  unfold riskStep
  rw [mkRiskItem_none_confidence]
  split <;> rfl

theorem foldl_riskStep (ai : AIEnv) (l : List (Nat × String)) (acc : List RiskItem) :
    l.foldl (riskStep ai) acc = acc := by
  induction l generalizing acc with
  | nil => rfl
  | cons h t ih => rw [List.foldl_cons, riskStep_id]; exact ih acc

theorem extractRisksFallback_raises :
    extractRisksFallback = Except.error (PyExc.validationError "RiskItem") := rfl

theorem extractRisks_raises (ai : AIEnv) :
    extractRisks ai = Except.error (PyExc.validationError "RiskItem") := by
  unfold extractRisks
  by_cases h : ai.classifierLoaded = false
  · rw [if_pos h, extractRisksFallback_raises]
  · rw [if_neg h]
    simp only [foldl_riskStep, if_true]
    exact extractRisksFallback_raises

theorem aiInsights_eq (ai : AIEnv) (ticker : String) (sources : List DataSource)
    (tc : List String) :
    aiInsights ai ticker sources tc =
      ([], [], ticker ++ " analysis completed with " ++ toString sources.length ++
        " data sources.") := by
  unfold aiInsights aiTry
  rw [extractRisks_raises]
  rfl

theorem generateSimpleMemo_raises (ai : AIEnv) (ticker : String)
    (sources : List DataSource) :
    generateSimpleMemo ai ticker sources =
      Except.error (PyExc.validationError "RiskItem") := by
  simp only [generateSimpleMemo]
  rw [aiInsights_eq]
  rfl

/-- The scenario environment of an all-empty ingestion run: every ingestor
succeeds with zero sources; persistence behaviours are arbitrary. -/
def emptyIngestEnv (ai : AIEnv) (addS : DataSource → Except PyExc Nat)
    (saveM : MemoData → Except PyExc Nat) : OrchEnv :=
  { marketRes := Except.ok [], newsRes := Except.ok [], secRes := Except.ok [],
    addSourceRes := addS, saveMemoRes := saveM, ai := ai }

/-- C4: when all three ingestors return zero sources the run does NOT reach
completed: `generate_simple_memo`'s fallback constructs `RiskItem` without
the required `confidence` and `severity` fields (and with string
`source_ids`), pydantic raises, and the outer handler of `run_sync_analysis`
marks the run failed with the validation error as its message. -/
theorem C4_empty_ingestion_marks_failed (ai : AIEnv)
    (addS : DataSource → Except PyExc Nat) (saveM : MemoData → Except PyExc Nat)
    (query : String) :
    (runSyncAnalysis (emptyIngestEnv ai addS saveM) query).finalStatus ≠
        RunStatus.completed ∧
    runSyncAnalysis (emptyIngestEnv ai addS saveM) query =
      { finalStatus := RunStatus.failed,
        errorMessage := some (pyStrExc (PyExc.validationError "RiskItem")) } := by
  have h : runSyncAnalysis (emptyIngestEnv ai addS saveM) query =
      { finalStatus := RunStatus.failed,
        errorMessage := some (pyStrExc (PyExc.validationError "RiskItem")) } := by
    unfold runSyncAnalysis emptyIngestEnv
    dsimp only
    rw [generateSimpleMemo_raises]
  refine ⟨?_, h⟩
  rw [h]
  decide

/-- C4 witness: the all-empty ingestion run evaluated on a concrete
environment. -/
theorem C4_empty_ingestion_marks_failed_witness :
    (runSyncAnalysis (emptyIngestEnv
        { classifierLoaded := true, riskSentences := [], oppSentences := [],
          keyPhrase := fun s => s, summaryResult := fun _ => none }
        (fun _ => Except.ok 0) (fun _ => Except.ok 0)) "AAPL").finalStatus ≠
        RunStatus.completed ∧
    runSyncAnalysis (emptyIngestEnv
        { classifierLoaded := true, riskSentences := [], oppSentences := [],
          keyPhrase := fun s => s, summaryResult := fun _ => none }
        (fun _ => Except.ok 0) (fun _ => Except.ok 0)) "AAPL" =
      { finalStatus := RunStatus.failed,
        errorMessage := some (pyStrExc (PyExc.validationError "RiskItem")) } :=
  C4_empty_ingestion_marks_failed
    { classifierLoaded := true, riskSentences := [], oppSentences := [],
      keyPhrase := fun s => s, summaryResult := fun _ => none }
    (fun _ => Except.ok 0) (fun _ => Except.ok 0) "AAPL"

/-- The all-default AI environment of the counterexample: no classifier
loaded, so every AI path goes through the fallbacks. -/
def cexAI : AIEnv :=
  { classifierLoaded := false, riskSentences := [], oppSentences := [],
    keyPhrase := fun s => s, summaryResult := fun _ => none }

/-- A run whose single market source is collected but whose `add_source`
raises a database error with reason `XDISKFULLX`; the memo step fails for
its own reason. -/
def cexEnv : OrchEnv :=
  { marketRes := Except.ok [createSource SourceType.marketData 1
      (some "yfinance://AAPL/info") (some "AAPL Company Information") none
      (some (String.mk (List.replicate 60 'a'))) none []],
    newsRes := Except.ok [], secRes := Except.ok [],
    addSourceRes := fun _ => Except.error (PyExc.dbError "XDISKFULLX"),
    saveMemoRes := fun _ => Except.ok 1, ai := cexAI }

/-- C1 counterexample: `add_source` throws `XDISKFULLX` while saving a
collected source, the run does end `failed` — but its error message is the
unrelated memo validation error and does not contain the persistence failure
reason. -/
theorem C1_addsource_counterexample :
    (runSyncAnalysis cexEnv "AAPL").finalStatus = RunStatus.failed ∧
    (runSyncAnalysis cexEnv "AAPL").errorMessage =
      some "validation error for RiskItem" ∧
    containsStr "validation error for RiskItem" "XDISKFULLX" = false := by
  exact ⟨rfl, rfl, by decide⟩

/-- C1: `run_sync_analysis` wraps each `add_source` call in a per-source
handler that only logs, so the persistence layer's behaviour never influences
the run's final status or error message: the outcome is identical under any
two `add_source` behaviours, and in particular a throwing `add_source`
neither fails the run by itself nor surfaces its reason in the message. -/
theorem C1_persistence_invariance (env : OrchEnv)
    (f g : DataSource → Except PyExc Nat) (query : String) :
    runSyncAnalysis { env with addSourceRes := f } query =
      runSyncAnalysis { env with addSourceRes := g } query := rfl

end AIRA
